/-
Verification of the shim-mcp concurrency/resource core against its
natural-language specification.

The development shallowly embeds the three components the claims are about:
  * `ShimMCP.Mux`       — src/session/SessionMultiplexerImpl.ts
  * `ShimMCP.Transport` — src/transport/StdioTransportAdapter.ts
  * `ShimMCP.Proc`      — src/process/MCPProcessManager.ts

Modelling conventions:
  * JavaScript `Map` objects become association lists with JS `Map.set`
    semantics (overwrite in place, append new keys at the end).
  * `Date.now()` values and generated session ids are passed in as explicit
    parameters (they are external inputs to the algorithms).
  * Timer handles are dropped; a pending timer is represented by the key it
    is registered under, and a timer firing is an explicit transition.
  * The transport's send operations are external I/O; their success or
    failure is an explicit boolean input.
  * An `MCPMessage` as seen by the multiplexer is its optional correlation
    `id` plus an opaque body (`method`/`params`/`result`/`error` are never
    inspected there).
-/
import Mathlib

namespace ShimMCP

/-! # Definitions -/

section Maps

variable {α : Type}

/-- `Map.get`: first binding of the key, if any. -/
def lookupMap (l : List (Nat × α)) (k : Nat) : Option α :=
  match l with
  | [] => none
  | (k', v) :: rest => if k' = k then some v else lookupMap rest k

/-- `Map.set`: overwrite an existing binding in place, else append. -/
def setMap (l : List (Nat × α)) (k : Nat) (v : α) : List (Nat × α) :=
  match l with
  | [] => [(k, v)]
  | (k', v') :: rest => if k' = k then (k, v) :: rest else (k', v') :: setMap rest k v

/-- `Map.delete`: remove the binding of the key. -/
def delMap (l : List (Nat × α)) (k : Nat) : List (Nat × α) :=
  l.filter (fun p => p.1 != k)

end Maps

namespace Mux

/-- An MCP message as the multiplexer sees it: optional correlation id plus an
opaque body standing for the remaining fields (`method`, `params`, `result`,
`error`), which the multiplexer never inspects. -/
structure MMessage where
  id : Option Nat
  body : Nat
deriving DecidableEq, Repr

/-- A `SessionEnvelope` (sessionId, per-session sequence, payload, timestamp). -/
structure Envelope where
  sessionId : Nat
  sequence : Nat
  payload : MMessage
  timestamp : Nat
deriving DecidableEq, Repr

/-- The mutable per-session record `ActiveSession`. `pendingRequests` keeps the
message ids that have an armed 30s request timer (the timer handle and the
stored timestamp are abstracted away). -/
structure Session where
  id : Nat
  clientPid : Nat
  startTime : Nat
  lastActivity : Nat
  isActive : Bool
  pendingRequests : List Nat
  messageQueue : List MMessage
  lastSequence : Nat
  flowControlWindow : Int
  backpressure : Bool
deriving DecidableEq, Repr

/-- `SessionMultiplexerConfig` after constructor defaulting. -/
structure MuxConfig where
  maxConcurrentSessions : Nat
  sessionIdleTimeout : Nat
  flowControlWindowSize : Int
  enableFlowControl : Bool
deriving DecidableEq, Repr

/-- The constructor defaults: 50 sessions, 10-minute idle timeout, flow-control
window 10, flow control enabled. -/
def defaultMuxConfig : MuxConfig :=
  { maxConcurrentSessions := 50
    sessionIdleTimeout := 600000
    flowControlWindowSize := 10
    enableFlowControl := true }

/-- The multiplexer's own state: the session table, the global
`messageRoutes` map (message id to owning session id) and whether a transport
adapter has been set. -/
structure MuxState where
  sessions : List (Nat × Session)
  messageRoutes : List (Nat × Nat)
  hasAdapter : Bool
deriving DecidableEq, Repr

/-- State right after construction plus `setTransportAdapter`. -/
def initMux : MuxState := { sessions := [], messageRoutes := [], hasAdapter := true }

/-- Result of `createSession`. -/
inductive CreateResult where
  | ok (sessionId : Nat)
  | err (message : String)
deriving DecidableEq, Repr

/-- The fresh `ActiveSession` record built by `createSession`. -/
def mkSession (cfg : MuxConfig) (sessionId clientPid now : Nat) : Session :=
  { id := sessionId
    clientPid := clientPid
    startTime := now
    lastActivity := now
    isActive := true
    pendingRequests := []
    messageQueue := []
    lastSequence := 0
    flowControlWindow := cfg.flowControlWindowSize
    backpressure := false }

/-- `createSession(clientPid)`. `freshId` is the value returned by
`Utils.generateSessionId()` (time plus randomness, modelled as an input). -/
def createSession (cfg : MuxConfig) (st : MuxState) (freshId clientPid now : Nat) :
    MuxState × CreateResult :=
  if cfg.maxConcurrentSessions ≤ st.sessions.length then
    (st, .err "Maximum concurrent sessions exceeded")
  else
    ({ st with sessions := setMap st.sessions freshId (mkSession cfg freshId clientPid now) },
     .ok freshId)

/-- `destroySession(sessionId)`: clears the session's pending request timers,
purges its routing-table entries, removes it, and reports whether a
`session.destroyed` event was emitted. No-op on unknown ids. -/
def destroySession (st : MuxState) (sid : Nat) : MuxState × Bool :=
  match lookupMap st.sessions sid with
  | none => (st, false)
  | some _ =>
    ({ st with
        sessions := delMap st.sessions sid
        messageRoutes := st.messageRoutes.filter (fun p => p.2 != sid) },
     true)

/-- Result of `routeToBackend`: the thrown `SessionError`s, the queued case,
and the sent cases (`errSendFailed` is the catch branch that restores the
flow-control credit and rethrows as a `SessionError`). -/
inductive BResult where
  | errNoSession
  | errNoAdapter
  | queued
  | sent (env : Envelope)
  | errSendFailed (env : Envelope)
deriving DecidableEq, Repr

/-- `updateSessionActivity`: refresh `lastActivity`. -/
def touch (s : Session) (now : Nat) : Session := { s with lastActivity := now }

/-- Backpressure branch of `routeToBackend`: append to the message queue. -/
def enqueueMsg (s : Session) (msg : MMessage) : Session :=
  { s with messageQueue := s.messageQueue ++ [msg] }

/-- `setupRequestTimeout`: register the pending 30s request timer under the
message id (a `Map.set`, hence idempotent on the key). -/
def trackPending (s : Session) : Option Nat → Session
  | some i =>
    { s with pendingRequests :=
        if s.pendingRequests.contains i then s.pendingRequests
        else s.pendingRequests ++ [i] }
  | none => s

/-- `messageRoutes.set(message.id, sessionId)` when the message has an id. -/
def trackRoutes (routes : List (Nat × Nat)) (sid : Nat) : Option Nat → List (Nat × Nat)
  | some i => setMap routes i sid
  | none => routes

/-- Flow-control decrement: `flowControlWindow--`, backpressure raised (only
ever set to `true` here) once the window is at or below zero. -/
def fcDecrement (fc : Bool) (s : Session) : Session :=
  if fc then
    { s with
        flowControlWindow := s.flowControlWindow - 1
        backpressure := if s.flowControlWindow - 1 ≤ 0 then true else s.backpressure }
  else s

/-- Credit restore of the `routeToBackend` catch branch:
`flowControlWindow++; backpressure = flowControlWindow <= 0`. -/
def fcRestore (fc : Bool) (s : Session) : Session :=
  if fc then
    { s with
        flowControlWindow := s.flowControlWindow + 1
        backpressure := decide (s.flowControlWindow + 1 ≤ 0) }
  else s

/-- `++session.lastSequence`. -/
def bumpSeq (s : Session) : Session := { s with lastSequence := s.lastSequence + 1 }

/-- `clearRequestTimeout` when the message carries an id. -/
def clearPending (s : Session) : Option Nat → Session
  | some i => { s with pendingRequests := s.pendingRequests.erase i }
  | none => s

/-- `messageRoutes.delete(message.id)` when the message carries an id. -/
def clearRoutes (routes : List (Nat × Nat)) : Option Nat → List (Nat × Nat)
  | some i => delMap routes i
  | none => routes

/-- `routeToClient` credit replenishment: `flowControlWindow++`. -/
def fcIncrement (s : Session) : Session :=
  { s with flowControlWindow := s.flowControlWindow + 1 }

/-- `session.backpressure = false` when the flush is about to run. -/
def relieveBp (s : Session) : Session := { s with backpressure := false }

/-- `messageQueue.splice(0)`: empty the queue. -/
def clearQueue (s : Session) : Session := { s with messageQueue := [] }

/-- `messageQueue.unshift(...msgs)`: put `msgs` back at the front. -/
def requeueMsgs (s : Session) (msgs : List MMessage) : Session :=
  { s with messageQueue := msgs ++ s.messageQueue }

/-- `routeToBackend(sessionId, message)`. `now` is `Date.now()`, `sendOk` the
outcome of `transportAdapter.sendToBackend`. -/
def routeToBackend (cfg : MuxConfig) (st : MuxState) (sid : Nat) (msg : MMessage)
    (now : Nat) (sendOk : Bool) : MuxState × BResult :=
  match lookupMap st.sessions sid with
  | none => (st, .errNoSession)
  | some s0 =>
    if !st.hasAdapter then (st, .errNoAdapter)
    else
      let s1 := touch s0 now
      if cfg.enableFlowControl && s1.backpressure then
        ({ st with sessions := setMap st.sessions sid (enqueueMsg s1 msg) }, .queued)
      else
        -- request tracking (routing-table entry plus 30s timer) when the message has an id,
        -- then flow-control decrement, then the sequence-numbered envelope
        let routes := trackRoutes st.messageRoutes sid msg.id
        let s4 := bumpSeq (fcDecrement cfg.enableFlowControl (trackPending s1 msg.id))
        let env : Envelope :=
          { sessionId := sid, sequence := s4.lastSequence, payload := msg, timestamp := now }
        if sendOk then
          ({ st with sessions := setMap st.sessions sid s4, messageRoutes := routes },
           .sent env)
        else
          ({ st with
              sessions := setMap st.sessions sid (fcRestore cfg.enableFlowControl s4)
              messageRoutes := routes },
           .errSendFailed env)

/-- JavaScript `Array.prototype.indexOf` by the loop variable's identity:
index of the first occurrence (the call sites always pass a member). -/
def idxOfMsg (m : MMessage) : List MMessage → Nat
  | [] => 0
  | x :: xs => if x = m then 0 else idxOfMsg m xs + 1

/-- The `for (const message of messages)` loop body of `processQueuedMessages`:
`full` is the array obtained by `splice(0)`, `rest` the part not yet visited.
When backpressure has been re-triggered, `messages.slice(messages.indexOf(message))`
is unshifted onto the queue and the loop breaks; otherwise the message goes
through `routeToBackend` (whose rejection is caught, reported and skipped).
`oks` supplies the outcome of each backend send. Returns the state and the
envelopes actually sent. -/
def flushLoop (cfg : MuxConfig) (full : List MMessage) :
    List MMessage → MuxState → Nat → Nat → List Bool → MuxState × List Envelope
  | [], st, _, _, _ => (st, [])
  | m :: rest, st, sid, now, oks =>
    match lookupMap st.sessions sid with
    | none => (st, [])
    | some s =>
      if s.backpressure then
        let sR := requeueMsgs s (full.drop (idxOfMsg m full))
        ({ st with sessions := setMap st.sessions sid sR }, [])
      else
        let step := routeToBackend cfg st sid m now (oks.headD true)
        let next := flushLoop cfg full rest step.1 sid now oks.tail
        match step.2 with
        | .sent env => (next.1, env :: next.2)
        | _ => next

/-- `processQueuedMessages(sessionId)`: drain the session's queue through
`routeToBackend`, stopping (and re-queueing the remainder) if backpressure is
re-triggered. -/
def processQueuedMessages (cfg : MuxConfig) (st : MuxState) (sid now : Nat)
    (oks : List Bool) : MuxState × List Envelope :=
  match lookupMap st.sessions sid with
  | none => (st, [])
  | some s =>
    if s.messageQueue.isEmpty then (st, [])
    else
      let msgs := s.messageQueue
      let st1 := { st with sessions := setMap st.sessions sid (clearQueue s) }
      flushLoop cfg msgs msgs st1 sid now oks

/-- Result of `routeToClient` (all error cases are thrown `SessionError`s). -/
inductive CResult where
  | errNoSession
  | errNoAdapter
  | delivered
  | errDeliverFailed
deriving DecidableEq, Repr

/-- `routeToClient(sessionId, message)`. `oks` supplies the outcomes of the
backend sends performed by the queue flush, `clientOk` the outcome of
`transportAdapter.sendToClient`. Also returns the envelopes flushed to the
backend. -/
def routeToClient (cfg : MuxConfig) (st : MuxState) (sid : Nat) (msg : MMessage)
    (now : Nat) (oks : List Bool) (clientOk : Bool) :
    MuxState × List Envelope × CResult :=
  match lookupMap st.sessions sid with
  | none => (st, [], .errNoSession)
  | some s0 =>
    if !st.hasAdapter then (st, [], .errNoAdapter)
    else
      -- clear request tracking if this is a response carrying an id
      let s2 := clearPending (touch s0 now) msg.id
      let routes := clearRoutes st.messageRoutes msg.id
      let res : CResult := if clientOk then .delivered else .errDeliverFailed
      if cfg.enableFlowControl then
        let s3 := fcIncrement s2
        if s3.backpressure && decide ((0 : Int) < s3.flowControlWindow) then
          let st2 :=
            { st with sessions := setMap st.sessions sid (relieveBp s3), messageRoutes := routes }
          let flushed := processQueuedMessages cfg st2 sid now oks
          (flushed.1, flushed.2, res)
        else
          ({ st with sessions := setMap st.sessions sid s3, messageRoutes := routes }, [], res)
      else
        ({ st with sessions := setMap st.sessions sid s2, messageRoutes := routes }, [], res)

/-- The 30s request timer of `(sessionId, messageId)` firing:
`clearRequestTimeout` plus an emitted `SessionError` (the event itself does
not change multiplexer state). -/
def fireRequestTimeout (st : MuxState) (sid mid : Nat) : MuxState :=
  match lookupMap st.sessions sid with
  | none => st
  | some s =>
    { st with sessions := setMap st.sessions sid (clearPending s (some mid)) }

/-- The 60s cleanup interval firing: destroy every session whose idle time
exceeds the configured session idle timeout. -/
def cleanupIdleSessions (cfg : MuxConfig) (st : MuxState) (now : Nat) : MuxState :=
  (st.sessions.filter (fun p => decide (cfg.sessionIdleTimeout < now - p.2.lastActivity))).foldl
    (fun acc p => (destroySession acc p.1).1) st

/-- Result of `handleInboundMessage`. -/
inductive IResult where
  | delivered (sid : Nat)
  | deliverError (sid : Nat)
  | unroutable
deriving DecidableEq, Repr

/-- Target-session resolution of `handleInboundMessage`: the envelope's
explicit session id if present, else a routing-table lookup by the payload's
message id. -/
def resolveTarget (st : MuxState) (envSessionId : Option Nat) (payload : MMessage) :
    Option Nat :=
  match envSessionId with
  | some sid => some sid
  | none =>
    match payload.id with
    | some i => lookupMap st.messageRoutes i
    | none => none

/-- `handleInboundMessage(envelope)`: resolve the target session, then
`routeToClient` (its rejection is reported as an error event); with no target,
emit the unroutable-message `SessionError` and deliver nothing. -/
def handleInboundMessage (cfg : MuxConfig) (st : MuxState) (envSessionId : Option Nat)
    (payload : MMessage) (now : Nat) (oks : List Bool) (clientOk : Bool) :
    MuxState × List Envelope × IResult :=
  match resolveTarget st envSessionId payload with
  | some tid =>
    let r := routeToClient cfg st tid payload now oks clientOk
    (r.1, r.2.1,
      match r.2.2 with
      | .delivered => .delivered tid
      | _ => .deliverError tid)
  | none => (st, [], .unroutable)

/-! ## Reachable multiplexer states

One constructor per public operation and per timer firing, all with arbitrary
external inputs (times, generated ids, message contents, send outcomes). -/

inductive Reach (cfg : MuxConfig) : MuxState → Prop where
  | init : Reach cfg initMux
  | create {st} (fid pid now : Nat) : Reach cfg st →
      Reach cfg (createSession cfg st fid pid now).1
  | destroy {st} (sid : Nat) : Reach cfg st →
      Reach cfg (destroySession st sid).1
  | routeB {st} (sid : Nat) (msg : MMessage) (now : Nat) (sendOk : Bool) : Reach cfg st →
      Reach cfg (routeToBackend cfg st sid msg now sendOk).1
  | routeC {st} (sid : Nat) (msg : MMessage) (now : Nat) (oks : List Bool) (clientOk : Bool) :
      Reach cfg st → Reach cfg (routeToClient cfg st sid msg now oks clientOk).1
  | inbound {st} (esid : Option Nat) (payload : MMessage) (now : Nat) (oks : List Bool)
      (clientOk : Bool) : Reach cfg st →
      Reach cfg (handleInboundMessage cfg st esid payload now oks clientOk).1
  | timerReq {st} (sid mid : Nat) : Reach cfg st →
      Reach cfg (fireRequestTimeout st sid mid)
  | timerSweep {st} (now : Nat) : Reach cfg st →
      Reach cfg (cleanupIdleSessions cfg st now)

/-- The per-session flow-control invariant that actually holds:
`backpressure == (flowControlWindow <= 0)` and `0 <= flowControlWindow`. -/
def sessionInvariant (s : Session) : Bool :=
  (s.backpressure == decide (s.flowControlWindow ≤ 0)) && decide (0 ≤ s.flowControlWindow)

/-- `sessionInvariant` for every session in the table. -/
def muxInvariant (st : MuxState) : Bool :=
  st.sessions.all (fun p => sessionInvariant p.2)

/-- Propositional form of `muxInvariant`. -/
def InvP (st : MuxState) : Prop := ∀ p ∈ st.sessions, sessionInvariant p.2 = true

/-! ## Claim C1 -/

/-- Reached by one `createSession` and one `routeToClient` on the default
configuration; the session's window is then 11, above the configured size 10. -/
def c1CounterState : MuxState :=
  (routeToClient defaultMuxConfig (createSession defaultMuxConfig initMux 0 7 5).1
    0 { id := none, body := 0 } 6 [] true).1

/-- A concrete backpressured session (window exhausted). -/
def bpSession : Session :=
  { id := 3, clientPid := 1, startTime := 0, lastActivity := 0, isActive := true
    pendingRequests := [], messageQueue := [], lastSequence := 2
    flowControlWindow := 0, backpressure := true }

/-- A concrete state holding `bpSession`. -/
def bpState : MuxState :=
  { sessions := [(3, bpSession)], messageRoutes := [], hasAdapter := true }

/-- A two-session configuration at its cap. -/
def cap2Cfg : MuxConfig :=
  { maxConcurrentSessions := 2, sessionIdleTimeout := 600000
    flowControlWindowSize := 10, enableFlowControl := true }

/-- A concrete state with two sessions, at the cap of `cap2Cfg`. -/
def cap2St : MuxState :=
  { sessions := [(1, mkSession cap2Cfg 1 11 0), (2, mkSession cap2Cfg 2 12 0)]
    messageRoutes := [], hasAdapter := true }

/-- Flow-control window 1, so that backpressure re-triggers after a single
flushed message. -/
def c3Cfg : MuxConfig :=
  { maxConcurrentSessions := 50, sessionIdleTimeout := 600000
    flowControlWindowSize := 1, enableFlowControl := true }

/-- The duplicated message (the same object reference queued twice in JS). -/
def mDup : MMessage := { id := none, body := 1 }

/-- A distinct third message. -/
def mOther : MMessage := { id := none, body := 2 }

/-- Reached by: create (window 1); send one message (window 0, backpressure);
queue `mDup`, `mDup`, `mOther` while backpressured. -/
def c3CounterState : MuxState :=
  (routeToBackend c3Cfg
    (routeToBackend c3Cfg
      (routeToBackend c3Cfg
        (routeToBackend c3Cfg (createSession c3Cfg initMux 0 9 0).1
          0 { id := none, body := 0 } 1 true).1
        0 mDup 2 true).1
      0 mDup 3 true).1
    0 mOther 4 true).1

/-- The `routeToClient` call that restores credit and triggers the flush. -/
def c3CounterRun : MuxState × List Envelope × CResult :=
  routeToClient c3Cfg c3CounterState 0 { id := none, body := 5 } 5 [true, true, true] true

/-- A backpressured session with the pairwise-distinct queue `[mDup, mOther]`. -/
def c3WitnessSession : Session :=
  { id := 0, clientPid := 9, startTime := 0, lastActivity := 0, isActive := true
    pendingRequests := [], messageQueue := [mDup, mOther], lastSequence := 1
    flowControlWindow := 0, backpressure := true }

/-- State holding `c3WitnessSession`. -/
def c3WitnessState : MuxState :=
  { sessions := [(0, c3WitnessSession)], messageRoutes := [], hasAdapter := true }

end Mux

namespace Transport

/-- A parsed JSON value, as far as `Utils.isValidMCPMessage` inspects it: a
non-object (null, boolean, number, string — also covering the falsy check), or
an object carrying whether `typeof method === 'string'`, whether it has own
`result` and own `error` properties, and an opaque body. -/
inductive JSValue where
  | prim
  | obj (methodIsString hasResult hasError : Bool) (body : Nat)
deriving DecidableEq, Repr

/-- `Utils.isValidMCPMessage`: an object with a string `method`, or an own
`result`, or an own `error`. -/
def isValidMCPMessage : JSValue → Bool
  | .prim => false
  | .obj m r e _ => m || r || e

/-- An outbound `SessionEnvelope` built by `processIncomingMessage`
(timestamp omitted — never inspected). -/
structure TEnvelope where
  sessionId : Nat
  sequence : Nat
  payload : JSValue
deriving DecidableEq, Repr

/-- Events emitted while processing stdin: non-fatal parse errors and
`message.outbound` envelopes. -/
inductive TAEvent where
  | parseError
  | outbound (env : TEnvelope)
deriving DecidableEq, Repr

/-- The adapter state touched by stdin processing. -/
structure TAState where
  messageBuffer : List Char
  outboundSequence : Nat
deriving DecidableEq, Repr

/-- Initial adapter state. -/
def initTA : TAState := { messageBuffer := [], outboundSequence := 0 }

/-- JavaScript `String.prototype.split('\n')`: the segments between newlines,
including a leading/trailing empty segment; never empty. -/
def splitNL : List Char → List (List Char)
  | [] => [[]]
  | c :: rest =>
    if c = '\n' then [] :: splitNL rest
    else
      match splitNL rest with
      | [] => [[c]]
      | l :: ls => (c :: l) :: ls

/-- The whitespace stripped by `trim()` (restricted to the characters that can
occur in this newline-delimited wire format). -/
def jsWhitespace (c : Char) : Bool :=
  c = ' ' || c = '\t' || c = '\n' || c = '\r'

/-- JavaScript `String.prototype.trim()`. -/
def trimJS (l : List Char) : List Char :=
  ((l.dropWhile jsWhitespace).reverse.dropWhile jsWhitespace).reverse

/-- `processIncomingMessage(message)`: `JSON.parse` (an external library call,
supplied as `parse`), validity check, and on success one envelope with the
incremented per-adapter sequence; any failure emits one non-fatal parse error
and nothing else. -/
def processIncomingMessage (parse : List Char → Option JSValue) (sid : Nat)
    (st : TAState) (line : List Char) : TAState × List TAEvent :=
  match parse line with
  | some v =>
    if isValidMCPMessage v then
      ({ st with outboundSequence := st.outboundSequence + 1 },
       [.outbound { sessionId := sid, sequence := st.outboundSequence + 1, payload := v }])
    else (st, [.parseError])
  | none => (st, [.parseError])

/-- The `for (const line of lines)` loop of `handleStdinData`: skip blank
lines, process the rest trimmed. -/
def handleLines (parse : List Char → Option JSValue) (sid : Nat) :
    TAState → List (List Char) → TAState × List TAEvent
  | st, [] => (st, [])
  | st, l :: ls =>
    if (trimJS l).isEmpty then handleLines parse sid st ls
    else
      let r := processIncomingMessage parse sid st (trimJS l)
      let next := handleLines parse sid r.1 ls
      (next.1, r.2 ++ next.2)

/-- `handleStdinData(chunk)`: append to the buffer, split on newline, keep the
trailing (incomplete) segment as the new buffer, process the complete lines. -/
def handleStdinData (parse : List Char → Option JSValue) (sid : Nat)
    (st : TAState) (chunk : List Char) : TAState × List TAEvent :=
  let lines := splitNL (st.messageBuffer ++ chunk)
  handleLines parse sid { st with messageBuffer := lines.getLastD [] } lines.dropLast

/-- A whole stdin session: the chunks arriving in order. -/
def runChunks (parse : List Char → Option JSValue) (sid : Nat) :
    TAState → List (List Char) → TAState × List TAEvent
  | st, [] => (st, [])
  | st, c :: cs =>
    let r := handleStdinData parse sid st c
    let next := runChunks parse sid r.1 cs
    (next.1, r.2 ++ next.2)

/-- Modelled from the spec (reference side of the refinement): split the whole
concatenated input on newline, drop the trailing partial line, and process
each complete non-blank (after trim) line in order — invalid lines yield one
parse-error event and no envelope, valid lines yield exactly one envelope
carrying the next sequence number. -/
def specLineEvents (parse : List Char → Option JSValue) (sid : Nat) :
    Nat → List (List Char) → List TAEvent
  | _, [] => []
  | seq, l :: ls =>
    if (trimJS l).isEmpty then specLineEvents parse sid seq ls
    else
      match parse (trimJS l) with
      | some v =>
        if isValidMCPMessage v then
          .outbound { sessionId := sid, sequence := seq + 1, payload := v } ::
            specLineEvents parse sid (seq + 1) ls
        else .parseError :: specLineEvents parse sid seq ls
      | none => .parseError :: specLineEvents parse sid seq ls

/-- Number of valid (envelope-producing) lines. -/
def countValid (parse : List Char → Option JSValue) : List (List Char) → Nat
  | [] => 0
  | l :: ls =>
    (if (trimJS l).isEmpty then 0
     else
       match parse (trimJS l) with
       | some v => if isValidMCPMessage v then 1 else 0
       | none => 0) + countValid parse ls

/-- The sequence numbers of the outbound envelopes, in emission order. -/
def outSeqs (evs : List TAEvent) : List Nat :=
  evs.filterMap (fun e =>
    match e with
    | .outbound env => some env.sequence
    | .parseError => none)

/-- The session ids of the outbound envelopes. -/
def outSessions (evs : List TAEvent) : List Nat :=
  evs.filterMap (fun e =>
    match e with
    | .outbound env => some env.sessionId
    | .parseError => none)

/-! ### HTTP response correlation (claim C2) -/

/-- The transport state relevant to request/response correlation:
`pendingRequests` holds the sequences with an armed response timer. -/
structure HTState where
  pendingRequests : List Nat
  backendConnected : Bool
deriving DecidableEq, Repr

/-- Events of the correlation machinery. -/
inductive HTEvent where
  | inbound (sessionId seq : Nat) (payload : JSValue)
  | timeoutError (seq : Nat)
  | notConnectedError
deriving DecidableEq, Repr

/-- `handleBackendResponse(sequence, payload)`: clear the pending timer for
that sequence (if any) and emit the inbound message. -/
def handleBackendResponse (adapterSid : Nat) (st : HTState) (seq : Nat)
    (payload : JSValue) : HTState × List HTEvent :=
  ({ st with pendingRequests := st.pendingRequests.erase seq },
   [.inbound adapterSid seq payload])

/-- `setResponseTimeout(sequence)`: arm the response timer (`Map.set`). -/
def setResponseTimeout (st : HTState) (seq : Nat) : HTState :=
  { st with pendingRequests :=
      if st.pendingRequests.contains seq then st.pendingRequests
      else st.pendingRequests ++ [seq] }

/-- `sendToBackend(envelope)` in HTTP mode with a successful POST: `sendViaHttp`
awaits the response and hands it to `handleBackendResponse`, and only then
does `sendToBackend` call `setResponseTimeout` for the envelope's sequence. -/
def sendToBackendHttp (adapterSid : Nat) (st : HTState) (seq : Nat)
    (response : JSValue) : HTState × List HTEvent :=
  if !st.backendConnected then (st, [.notConnectedError])
  else
    let r := handleBackendResponse adapterSid st seq response
    (setResponseTimeout r.1 seq, r.2)

/-- The armed response timer for `seq` firing: delete the pending entry and
emit the timeout error. -/
def fireResponseTimeout (st : HTState) (seq : Nat) : HTState × List HTEvent :=
  ({ st with pendingRequests := st.pendingRequests.erase seq },
   [.timeoutError seq])

/-! ### `sendToClient` (claim C9) -/

/-- The adapter identity relevant to `sendToClient`. -/
structure StdioClientState where
  isStarted : Bool
  sessionId : Nat
deriving DecidableEq, Repr

/-- Result of `sendToClient`: a JSON line written to stdout, or a thrown
`TransportError`. -/
inductive SendToClientResult (α : Type) where
  | written (data : α)
  | errTransport (message : String)
deriving DecidableEq, Repr

/-- `sendToClient(sessionId, data)`: guard on started state and on the
adapter's own (single) session, then write one JSON line to stdout. -/
def sendToClient {α : Type} (ts : StdioClientState) (sid : Nat) (data : α) :
    SendToClientResult α :=
  if !ts.isStarted || sid != ts.sessionId then
    .errTransport "Transport not started or session mismatch"
  else .written data

/-- `SessionMultiplexer.routeToClient` wired to the stdio adapter's
`sendToClient` as its delivery callback. -/
def routeToClientViaStdio (cfg : Mux.MuxConfig) (st : Mux.MuxState)
    (ts : StdioClientState) (sid : Nat) (msg : Mux.MMessage) (now : Nat)
    (oks : List Bool) : Mux.MuxState × List Mux.Envelope × Mux.CResult :=
  Mux.routeToClient cfg st sid msg now oks
    (match sendToClient ts sid msg with
     | .written _ => true
     | .errTransport _ => false)

/-- Helper for reasoning about `splitNL` over appends: merge a prefix into the
first segment. -/
def mergeFirst (x : List Char) : List (List Char) → List (List Char)
  | [] => [x]
  | l :: ls => (x ++ l) :: ls

/-- A started adapter owning session 4. -/
def ts4 : StdioClientState := { isStarted := true, sessionId := 4 }

end Transport

namespace Proc

/-- `ProcessStatus['status']`. -/
inductive PStatus where
  | stopped
  | starting
  | running
  | stopping
  | crashed
deriving DecidableEq, Repr

/-- The restart policy. -/
inductive RestartPolicy where
  | never
  | onFailure
  | always
deriving DecidableEq, Repr

/-- The configuration consulted by crash handling. -/
structure PMConfig where
  restartPolicy : RestartPolicy
  maxRestartAttempts : Nat
deriving DecidableEq, Repr

/-- The mutable `ProcessStatus` fields crash handling touches. -/
structure PMStatus where
  status : PStatus
  restartCount : Nat
  isHealthy : Bool
deriving DecidableEq, Repr

/-- A `ProcessError` (its message). -/
structure ProcErr where
  message : String
deriving DecidableEq, Repr

/-- Events emitted by the `exit` handler. -/
inductive PMEvent where
  | backendStopped
  | backendCrashed (err : ProcErr)
deriving DecidableEq, Repr

/-- `updateStatus`: set the status, clearing `isHealthy` on `crashed`. -/
def updateStatus (st : PMStatus) (s : PStatus) : PMStatus :=
  { st with status := s, isHealthy := if s = .crashed then false else st.isHealthy }

/-- `attemptRestart()`: no-op when the policy is `never` or the restart count
has reached `maxRestartAttempts`; otherwise increment the count and schedule
`startProcess` after `2 ^ restartCount` seconds (the incremented count), the
delay returned in milliseconds. -/
def attemptRestart (cfg : PMConfig) (st : PMStatus) : PMStatus × Option Nat :=
  if cfg.restartPolicy = .never then (st, none)
  else if cfg.maxRestartAttempts ≤ st.restartCount then (st, none)
  else
    ({ st with restartCount := st.restartCount + 1 },
     some (2 ^ (st.restartCount + 1) * 1000))

/-- The `process.on('exit')` handler: an intentional exit (status `stopping`)
marks `stopped`; an unexpected one marks `crashed`, emits the crash event with
a `ProcessError`, and invokes `attemptRestart`. -/
def onProcessExit (cfg : PMConfig) (st : PMStatus) (code signal : String) :
    PMStatus × List PMEvent × Option Nat :=
  if st.status = .stopping then
    (updateStatus st .stopped, [.backendStopped], none)
  else
    let st1 := updateStatus st .crashed
    let r := attemptRestart cfg st1
    (r.1,
     [.backendCrashed ⟨s!"Process exited unexpectedly with code {code}, signal {signal}"⟩],
     r.2)

/-! ### Lock file (claim C6) -/

/-- The lock file as `isAnotherInstanceRunning` classifies it: absent,
unusable (unparseable JSON or a pid value `process.kill` rejects), or a
well-formed record with a pid. -/
inductive LockFile where
  | absent
  | invalid
  | valid (pid : Nat)
deriving DecidableEq, Repr

/-- `isAnotherInstanceRunning()`: reports a conflict only for a parseable lock
whose pid answers signal 0; stale or invalid files are unlinked. Returns the
verdict and the lock file state afterwards. -/
def isAnotherInstanceRunning (alive : Nat → Bool) : LockFile → Bool × LockFile
  | .absent => (false, .absent)
  | .invalid => (false, .absent)
  | .valid pid => if alive pid then (true, .valid pid) else (false, .absent)

/-- Outcome of `start(config)` up to the point the child is spawned. -/
structure StartResult where
  conflict : Bool
  lockAfterCheck : LockFile
  spawned : Bool
  finalLock : LockFile
deriving DecidableEq, Repr

/-- `start(config)`: throw the conflict `ProcessError` when another instance
is running — before `createLockFile` and before `spawn` — else proceed into
`startProcess`, which writes this process's lock record and spawns. -/
def pmStart (alive : Nat → Bool) (selfPid : Nat) (lock : LockFile) : StartResult :=
  let r := isAnotherInstanceRunning alive lock
  if r.1 then
    { conflict := true, lockAfterCheck := r.2, spawned := false, finalLock := r.2 }
  else
    { conflict := false, lockAfterCheck := r.2, spawned := true, finalLock := .valid selfPid }

/-- Alive exactly for pid 42. -/
def alive42 : Nat → Bool := fun p => p == 42

end Proc

/-! # Theorems -/

section Maps

theorem lookupMap_setMap_self (l : List (Nat × α)) (k : Nat) (v : α) :
    lookupMap (setMap l k v) k = some v := by
  induction l with
  | nil => simp [setMap, lookupMap]
  | cons p rest ih =>
    obtain ⟨k', v'⟩ := p
    by_cases h : k' = k
    · simp [setMap, lookupMap, h]
    · simp [setMap, lookupMap, h, ih]

theorem lookupMap_setMap_ne (l : List (Nat × α)) (k k' : Nat) (v : α) (h : k' ≠ k) :
    lookupMap (setMap l k v) k' = lookupMap l k' := by
  have hk : k ≠ k' := fun hh => h hh.symm
  induction l with
  | nil => simp [setMap, lookupMap, if_neg hk]
  | cons p rest ih =>
    obtain ⟨a, b⟩ := p
    by_cases ha : a = k
    · subst ha
      simp only [setMap, if_pos rfl, lookupMap]
      rw [if_neg hk, if_neg hk]
    · simp only [setMap, if_neg ha, lookupMap]
      by_cases hb : a = k'
      · simp [hb]
      · simp [hb, ih]

theorem mem_setMap (l : List (Nat × α)) (k : Nat) (v : α) (p : Nat × α)
    (h : p ∈ setMap l k v) : p ∈ l ∨ p = (k, v) := by
  induction l with
  | nil => simpa [setMap] using h
  | cons q rest ih =>
    obtain ⟨a, b⟩ := q
    by_cases ha : a = k
    · simp only [setMap, if_pos ha, List.mem_cons] at h
      rcases h with h | h
      · right; exact h
      · left; exact List.mem_cons_of_mem _ h
    · simp only [setMap, if_neg ha, List.mem_cons] at h
      rcases h with h | h
      · left; simp [h]
      · rcases ih h with h' | h'
        · left; exact List.mem_cons_of_mem _ h'
        · right; exact h'

theorem setMap_of_lookup_none (l : List (Nat × α)) (k : Nat) (v : α)
    (h : lookupMap l k = none) : setMap l k v = l ++ [(k, v)] := by
  induction l with
  | nil => simp [setMap]
  | cons p rest ih =>
    obtain ⟨a, b⟩ := p
    by_cases ha : a = k
    · simp [lookupMap, ha] at h
    · simp only [lookupMap, if_neg ha] at h
      simp [setMap, ha, ih h]

theorem length_delMap_of_mem (l : List (Nat × α)) (k : Nat)
    (hnd : (l.map Prod.fst).Nodup) (h : (lookupMap l k).isSome) :
    (delMap l k).length + 1 = l.length := by
  induction l with
  | nil => simp [lookupMap] at h
  | cons p rest ih =>
    obtain ⟨a, b⟩ := p
    simp only [List.map_cons, List.nodup_cons] at hnd
    by_cases ha : a = k
    · subst ha
      have hrest : List.filter (fun p => p.1 != a) rest = rest := by
        apply List.filter_eq_self.mpr
        intro q hq
        have h1 : q.1 ≠ a := fun hq1 => hnd.1 (hq1 ▸ List.mem_map_of_mem Prod.fst hq)
        simpa using h1
      simp [delMap, List.filter_cons, hrest]
    · simp only [lookupMap, if_neg ha] at h
      have hih := ih hnd.2 h
      have hbne : (a != k) = true := by simpa using ha
      simp only [delMap, List.filter_cons, hbne, if_true, List.length_cons]
      simp only [delMap] at hih
      omega

theorem lookupMap_mem {l : List (Nat × α)} {k : Nat} {v : α}
    (h : lookupMap l k = some v) : (k, v) ∈ l := by
  induction l with
  | nil => simp [lookupMap] at h
  | cons p rest ih =>
    obtain ⟨a, b⟩ := p
    by_cases ha : a = k
    · subst ha
      simp only [lookupMap, if_true] at h
      injection h with hbv
      subst hbv
      exact List.mem_cons_self _ _
    · simp only [lookupMap, if_neg ha] at h
      exact List.mem_cons_of_mem _ (ih h)

theorem lookupMap_isSome_of_filter {l : List (Nat × α)} {k : Nat} {f : Nat × α → Bool}
    (h : (lookupMap (l.filter f) k).isSome) : (lookupMap l k).isSome := by
  induction l with
  | nil => simp [lookupMap] at h
  | cons p rest ih =>
    obtain ⟨a, b⟩ := p
    rw [List.filter_cons] at h
    by_cases ha : a = k
    · simp [lookupMap, ha]
    · simp only [lookupMap, if_neg ha]
      by_cases hf : f (a, b) = true
      · rw [if_pos hf] at h
        simp only [lookupMap, if_neg ha] at h
        exact ih h
      · rw [if_neg hf] at h
        exact ih h

end Maps

namespace Mux

@[simp] theorem touch_bp (s : Session) (now : Nat) :
    (touch s now).backpressure = s.backpressure := rfl

@[simp] theorem touch_window (s : Session) (now : Nat) :
    (touch s now).flowControlWindow = s.flowControlWindow := rfl

@[simp] theorem touch_queue (s : Session) (now : Nat) :
    (touch s now).messageQueue = s.messageQueue := rfl

@[simp] theorem touch_pending (s : Session) (now : Nat) :
    (touch s now).pendingRequests = s.pendingRequests := rfl

@[simp] theorem touch_seq (s : Session) (now : Nat) :
    (touch s now).lastSequence = s.lastSequence := rfl

@[simp] theorem enqueueMsg_bp (s : Session) (m : MMessage) :
    (enqueueMsg s m).backpressure = s.backpressure := rfl

@[simp] theorem enqueueMsg_window (s : Session) (m : MMessage) :
    (enqueueMsg s m).flowControlWindow = s.flowControlWindow := rfl

@[simp] theorem enqueueMsg_queue (s : Session) (m : MMessage) :
    (enqueueMsg s m).messageQueue = s.messageQueue ++ [m] := rfl

@[simp] theorem trackPending_bp (s : Session) (o : Option Nat) :
    (trackPending s o).backpressure = s.backpressure := by cases o <;> rfl

@[simp] theorem trackPending_window (s : Session) (o : Option Nat) :
    (trackPending s o).flowControlWindow = s.flowControlWindow := by cases o <;> rfl

@[simp] theorem trackPending_queue (s : Session) (o : Option Nat) :
    (trackPending s o).messageQueue = s.messageQueue := by cases o <;> rfl

@[simp] theorem trackPending_seq (s : Session) (o : Option Nat) :
    (trackPending s o).lastSequence = s.lastSequence := by cases o <;> rfl

@[simp] theorem fcDecrement_bp (fc : Bool) (s : Session) :
    (fcDecrement fc s).backpressure =
      if fc then (if s.flowControlWindow - 1 ≤ 0 then true else s.backpressure)
      else s.backpressure := by
  cases fc <;> rfl

@[simp] theorem fcDecrement_window (fc : Bool) (s : Session) :
    (fcDecrement fc s).flowControlWindow =
      if fc then s.flowControlWindow - 1 else s.flowControlWindow := by
  cases fc <;> rfl

@[simp] theorem fcDecrement_queue (fc : Bool) (s : Session) :
    (fcDecrement fc s).messageQueue = s.messageQueue := by cases fc <;> rfl

@[simp] theorem fcDecrement_seq (fc : Bool) (s : Session) :
    (fcDecrement fc s).lastSequence = s.lastSequence := by cases fc <;> rfl

@[simp] theorem fcRestore_bp (fc : Bool) (s : Session) :
    (fcRestore fc s).backpressure =
      if fc then decide (s.flowControlWindow + 1 ≤ 0) else s.backpressure := by
  cases fc <;> rfl

@[simp] theorem fcRestore_window (fc : Bool) (s : Session) :
    (fcRestore fc s).flowControlWindow =
      if fc then s.flowControlWindow + 1 else s.flowControlWindow := by
  cases fc <;> rfl

@[simp] theorem fcRestore_queue (fc : Bool) (s : Session) :
    (fcRestore fc s).messageQueue = s.messageQueue := by cases fc <;> rfl

@[simp] theorem bumpSeq_bp (s : Session) : (bumpSeq s).backpressure = s.backpressure := rfl

@[simp] theorem bumpSeq_window (s : Session) :
    (bumpSeq s).flowControlWindow = s.flowControlWindow := rfl

@[simp] theorem bumpSeq_queue (s : Session) :
    (bumpSeq s).messageQueue = s.messageQueue := rfl

@[simp] theorem bumpSeq_seq (s : Session) :
    (bumpSeq s).lastSequence = s.lastSequence + 1 := rfl

@[simp] theorem clearPending_bp (s : Session) (o : Option Nat) :
    (clearPending s o).backpressure = s.backpressure := by cases o <;> rfl

@[simp] theorem clearPending_window (s : Session) (o : Option Nat) :
    (clearPending s o).flowControlWindow = s.flowControlWindow := by cases o <;> rfl

@[simp] theorem clearPending_queue (s : Session) (o : Option Nat) :
    (clearPending s o).messageQueue = s.messageQueue := by cases o <;> rfl

@[simp] theorem fcIncrement_bp (s : Session) :
    (fcIncrement s).backpressure = s.backpressure := rfl

@[simp] theorem fcIncrement_window (s : Session) :
    (fcIncrement s).flowControlWindow = s.flowControlWindow + 1 := rfl

@[simp] theorem fcIncrement_queue (s : Session) :
    (fcIncrement s).messageQueue = s.messageQueue := rfl

@[simp] theorem relieveBp_bp (s : Session) : (relieveBp s).backpressure = false := rfl

@[simp] theorem relieveBp_window (s : Session) :
    (relieveBp s).flowControlWindow = s.flowControlWindow := rfl

@[simp] theorem relieveBp_queue (s : Session) :
    (relieveBp s).messageQueue = s.messageQueue := rfl

@[simp] theorem clearQueue_bp (s : Session) : (clearQueue s).backpressure = s.backpressure := rfl

@[simp] theorem clearQueue_window (s : Session) :
    (clearQueue s).flowControlWindow = s.flowControlWindow := rfl

@[simp] theorem clearQueue_queue (s : Session) : (clearQueue s).messageQueue = [] := rfl

@[simp] theorem requeueMsgs_bp (s : Session) (ms : List MMessage) :
    (requeueMsgs s ms).backpressure = s.backpressure := rfl

@[simp] theorem requeueMsgs_window (s : Session) (ms : List MMessage) :
    (requeueMsgs s ms).flowControlWindow = s.flowControlWindow := rfl

@[simp] theorem requeueMsgs_queue (s : Session) (ms : List MMessage) :
    (requeueMsgs s ms).messageQueue = ms ++ s.messageQueue := rfl

/-! ## Flow-control invariant machinery -/

theorem sessionInvariant_iff (s : Session) :
    sessionInvariant s = true ↔
      (s.backpressure = decide (s.flowControlWindow ≤ 0) ∧ 0 ≤ s.flowControlWindow) := by
  simp [sessionInvariant, Bool.and_eq_true, decide_eq_true_eq]

theorem sessionInvariant_congr {s s' : Session} (hb : s'.backpressure = s.backpressure)
    (hw : s'.flowControlWindow = s.flowControlWindow) :
    sessionInvariant s' = sessionInvariant s := by
  simp [sessionInvariant, hb, hw]

theorem muxInvariant_iff_invP (st : MuxState) : muxInvariant st = true ↔ InvP st := by
  simp [muxInvariant, InvP, List.all_eq_true]

theorem invP_setMap {l : List (Nat × Session)} {k : Nat} {v : Session}
    (h : ∀ p ∈ l, sessionInvariant p.2 = true) (hv : sessionInvariant v = true) :
    ∀ p ∈ setMap l k v, sessionInvariant p.2 = true := by
  intro p hp
  rcases mem_setMap l k v p hp with h' | h'
  · exact h p h'
  · rw [h']
    exact hv

/-- The successful-send session update of `routeToBackend` keeps the invariant. -/
theorem inv_decPath (fc : Bool) (s : Session) (o : Option Nat) (now : Nat)
    (hbp : s.backpressure = decide (s.flowControlWindow ≤ 0)) (hw : 0 ≤ s.flowControlWindow)
    (hg : ¬(fc && s.backpressure) = true) :
    sessionInvariant (bumpSeq (fcDecrement fc (trackPending (touch s now) o))) = true := by
  rw [sessionInvariant_iff]
  simp only [bumpSeq_bp, bumpSeq_window, fcDecrement_bp, fcDecrement_window,
    trackPending_bp, trackPending_window, touch_bp, touch_window]
  cases fc with
  | false => simpa using ⟨hbp, hw⟩
  | true =>
    have hbp0 : s.backpressure = false := by
      rcases Bool.eq_false_or_eq_true s.backpressure with hb | hb
      · simp [hb] at hg
      · exact hb
    rw [hbp0] at hbp
    have hwpos : 0 < s.flowControlWindow := by
      by_contra hcon
      have : s.flowControlWindow ≤ 0 := by omega
      simp [this] at hbp
    constructor
    · by_cases hd : s.flowControlWindow - 1 ≤ 0 <;> simp [hd, hbp0]
    · simp only [if_true]
      omega

/-- The failed-send (credit-restore) session update of `routeToBackend` keeps
the invariant. -/
theorem inv_failPath (fc : Bool) (s : Session) (o : Option Nat) (now : Nat)
    (hbp : s.backpressure = decide (s.flowControlWindow ≤ 0)) (hw : 0 ≤ s.flowControlWindow)
    (hg : ¬(fc && s.backpressure) = true) :
    sessionInvariant
      (fcRestore fc (bumpSeq (fcDecrement fc (trackPending (touch s now) o)))) = true := by
  rw [sessionInvariant_iff]
  simp only [fcRestore_bp, fcRestore_window, bumpSeq_bp, bumpSeq_window,
    fcDecrement_bp, fcDecrement_window, trackPending_bp, trackPending_window,
    touch_bp, touch_window]
  cases fc with
  | false => simpa using ⟨hbp, hw⟩
  | true =>
    simp only [if_true]
    constructor
    · simp [Int.sub_add_cancel]
    · omega

theorem routeToBackend_invP (cfg : MuxConfig) (st : MuxState) (sid : Nat) (msg : MMessage)
    (now : Nat) (sendOk : Bool) (h : InvP st) :
    InvP (routeToBackend cfg st sid msg now sendOk).1 := by
  unfold routeToBackend
  cases hlk : lookupMap st.sessions sid with
  | none => exact h
  | some s0 =>
    have hs0 : sessionInvariant s0 = true := h _ (lookupMap_mem hlk)
    rw [sessionInvariant_iff] at hs0
    obtain ⟨hbp, hw⟩ := hs0
    by_cases hA : st.hasAdapter = true
    · simp only [hA, Bool.not_true, Bool.false_eq_true, if_false]
      by_cases hg : (cfg.enableFlowControl && (touch s0 now).backpressure) = true
      · rw [if_pos hg]
        refine invP_setMap h ?_
        rw [sessionInvariant_iff]
        simp only [enqueueMsg_bp, enqueueMsg_window, touch_bp, touch_window]
        exact ⟨hbp, hw⟩
      · rw [if_neg hg]
        rw [touch_bp] at hg
        cases sendOk with
        | true =>
          simp only [if_true]
          exact invP_setMap h (inv_decPath _ _ _ _ hbp hw hg)
        | false =>
          simp only [Bool.false_eq_true, if_false]
          exact invP_setMap h (inv_failPath _ _ _ _ hbp hw hg)
    · have hA' : st.hasAdapter = false := by simpa using hA
      simp only [hA', Bool.not_false, if_true]
      exact h

theorem createSession_invP (cfg : MuxConfig) (st : MuxState) (fid pid now : Nat)
    (hW : 1 ≤ cfg.flowControlWindowSize) (h : InvP st) :
    InvP (createSession cfg st fid pid now).1 := by
  unfold createSession
  by_cases hc : cfg.maxConcurrentSessions ≤ st.sessions.length
  · rw [if_pos hc]
    exact h
  · rw [if_neg hc]
    refine invP_setMap h ?_
    rw [sessionInvariant_iff]
    have hpos : ¬ cfg.flowControlWindowSize ≤ 0 := by omega
    constructor
    · simp [mkSession, hpos]
    · simp only [mkSession]
      omega

theorem destroySession_invP (st : MuxState) (sid : Nat) (h : InvP st) :
    InvP (destroySession st sid).1 := by
  unfold destroySession
  cases hlk : lookupMap st.sessions sid with
  | none => exact h
  | some s =>
    intro p hp
    exact h p (List.mem_of_mem_filter hp)

theorem fireRequestTimeout_invP (st : MuxState) (sid mid : Nat) (h : InvP st) :
    InvP (fireRequestTimeout st sid mid) := by
  unfold fireRequestTimeout
  cases hlk : lookupMap st.sessions sid with
  | none => exact h
  | some s =>
    refine invP_setMap h ?_
    have hs : sessionInvariant s = true := h _ (lookupMap_mem hlk)
    rw [sessionInvariant_iff] at hs ⊢
    simpa using hs

theorem flushLoop_invP (cfg : MuxConfig) (full : List MMessage) :
    ∀ (rest : List MMessage) (st : MuxState) (sid now : Nat) (oks : List Bool),
      InvP st → InvP (flushLoop cfg full rest st sid now oks).1 := by
  intro rest
  induction rest with
  | nil =>
    intro st sid now oks h
    simpa [flushLoop] using h
  | cons m rest ih =>
    intro st sid now oks h
    unfold flushLoop
    cases hlk : lookupMap st.sessions sid with
    | none => exact h
    | some s =>
      by_cases hbp : s.backpressure = true
      · simp only [hbp, if_true]
        refine invP_setMap h ?_
        have hs : sessionInvariant s = true := h _ (lookupMap_mem hlk)
        rw [sessionInvariant_iff] at hs ⊢
        simpa using hs
      · simp only [hbp, Bool.false_eq_true, if_false]
        have h1 : InvP (routeToBackend cfg st sid m now (oks.headD true)).1 :=
          routeToBackend_invP _ _ _ _ _ _ h
        have h2 := ih (routeToBackend cfg st sid m now (oks.headD true)).1 sid now oks.tail h1
        cases hres : (routeToBackend cfg st sid m now (oks.headD true)).2 with
        | errNoSession => exact h2
        | errNoAdapter => exact h2
        | queued => exact h2
        | sent env => exact h2
        | errSendFailed env => exact h2

theorem processQueuedMessages_invP (cfg : MuxConfig) (st : MuxState) (sid now : Nat)
    (oks : List Bool) (h : InvP st) :
    InvP (processQueuedMessages cfg st sid now oks).1 := by
  unfold processQueuedMessages
  cases hlk : lookupMap st.sessions sid with
  | none => exact h
  | some s =>
    by_cases he : s.messageQueue.isEmpty = true
    · simp only [he, if_true]
      exact h
    · simp only [he, Bool.false_eq_true, if_false]
      apply flushLoop_invP
      refine invP_setMap h ?_
      have hs : sessionInvariant s = true := h _ (lookupMap_mem hlk)
      rw [sessionInvariant_iff] at hs ⊢
      simpa using hs

theorem routeToClient_invP (cfg : MuxConfig) (st : MuxState) (sid : Nat) (msg : MMessage)
    (now : Nat) (oks : List Bool) (clientOk : Bool) (h : InvP st) :
    InvP (routeToClient cfg st sid msg now oks clientOk).1 := by
  unfold routeToClient
  cases hlk : lookupMap st.sessions sid with
  | none => exact h
  | some s0 =>
    have hs0 : sessionInvariant s0 = true := h _ (lookupMap_mem hlk)
    rw [sessionInvariant_iff] at hs0
    obtain ⟨hbp, hw⟩ := hs0
    by_cases hA : st.hasAdapter = true
    · simp only [hA, Bool.not_true, Bool.false_eq_true, if_false]
      by_cases hfc : cfg.enableFlowControl = true
      · simp only [hfc, if_true]
        by_cases hg : ((fcIncrement (clearPending (touch s0 now) msg.id)).backpressure &&
            decide ((0 : Int) < (fcIncrement (clearPending (touch s0 now) msg.id)).flowControlWindow)) = true
        · rw [if_pos hg]
          apply processQueuedMessages_invP
          refine invP_setMap h ?_
          rw [sessionInvariant_iff]
          simp only [Bool.and_eq_true, decide_eq_true_eq, fcIncrement_bp, fcIncrement_window,
            clearPending_bp, clearPending_window, touch_bp, touch_window] at hg
          simp only [relieveBp_bp, relieveBp_window, fcIncrement_bp, fcIncrement_window,
            clearPending_bp, clearPending_window, touch_bp, touch_window]
          constructor
          · have : ¬ s0.flowControlWindow + 1 ≤ 0 := by omega
            simp [this]
          · omega
        · rw [if_neg hg]
          refine invP_setMap h ?_
          rw [sessionInvariant_iff]
          simp only [Bool.and_eq_true, decide_eq_true_eq, fcIncrement_bp, fcIncrement_window,
            clearPending_bp, clearPending_window, touch_bp, touch_window] at hg
          simp only [fcIncrement_bp, fcIncrement_window,
            clearPending_bp, clearPending_window, touch_bp, touch_window]
          rcases Bool.eq_false_or_eq_true s0.backpressure with hb | hb
          · -- backpressured: the invariant forces window 0, so the guard must have held
            rw [hb] at hbp
            have hle : s0.flowControlWindow ≤ 0 := by
              by_contra hcon
              simp [hcon] at hbp
            exact absurd ⟨hb, by omega⟩ hg
          · rw [hb] at hbp ⊢
            have hpos : ¬ s0.flowControlWindow ≤ 0 := by
              by_contra hcon
              simp [hcon] at hbp
            constructor
            · have : ¬ s0.flowControlWindow + 1 ≤ 0 := by omega
              simp [this]
            · omega
      · have hfc' : cfg.enableFlowControl = false := by simpa using hfc
        simp only [hfc', Bool.false_eq_true, if_false]
        refine invP_setMap h ?_
        rw [sessionInvariant_iff]
        simp only [clearPending_bp, clearPending_window, touch_bp, touch_window]
        exact ⟨hbp, hw⟩
    · have hA' : st.hasAdapter = false := by simpa using hA
      simp only [hA', Bool.not_false, if_true]
      exact h

theorem handleInboundMessage_invP (cfg : MuxConfig) (st : MuxState) (esid : Option Nat)
    (payload : MMessage) (now : Nat) (oks : List Bool) (clientOk : Bool) (h : InvP st) :
    InvP (handleInboundMessage cfg st esid payload now oks clientOk).1 := by
  unfold handleInboundMessage
  cases htg : resolveTarget st esid payload with
  | none => exact h
  | some tid => exact routeToClient_invP _ _ _ _ _ _ _ h

theorem cleanupIdleSessions_invP (cfg : MuxConfig) (st : MuxState) (now : Nat) (h : InvP st) :
    InvP (cleanupIdleSessions cfg st now) := by
  unfold cleanupIdleSessions
  generalize st.sessions.filter _ = l
  induction l generalizing st with
  | nil => exact h
  | cons p rest ih =>
    exact ih _ (destroySession_invP _ _ h)

/-- C1, counterexample to the upper bound: after creating a session (window 10)
and routing a single message to the client, the flow-control window is 11,
strictly above `configuredWindowSize = 10`, in a reachable state. -/
theorem c1_upper_bound_counterexample :
    Reach defaultMuxConfig c1CounterState ∧
    defaultMuxConfig.flowControlWindowSize = 10 ∧
    (lookupMap c1CounterState.sessions 0).map Session.flowControlWindow = some 11 :=
  ⟨Reach.routeC 0 { id := none, body := 0 } 6 [] true (Reach.create 0 7 5 Reach.init),
   by decide, by decide⟩

/-- C1 (amended): in every reachable multiplexer state, for a positive
configured window size, every session satisfies
`backpressure == (flowControlWindow <= 0)` and `0 <= flowControlWindow`;
the claimed upper bound `flowControlWindow <= configuredWindowSize` does not
hold (see the counterexample), because `routeToClient` replenishes credit
unconditionally. -/
theorem c1_invariant_amended (cfg : MuxConfig) (st : MuxState)
    (hW : 1 ≤ cfg.flowControlWindowSize) (h : Reach cfg st) :
    muxInvariant st = true := by
  rw [muxInvariant_iff_invP]
  induction h with
  | init =>
    intro p hp
    simp [initMux] at hp
  | create fid pid now _ ih => exact createSession_invP _ _ _ _ _ hW ih
  | destroy sid _ ih => exact destroySession_invP _ _ ih
  | routeB sid msg now sendOk _ ih => exact routeToBackend_invP _ _ _ _ _ _ ih
  | routeC sid msg now oks clientOk _ ih => exact routeToClient_invP _ _ _ _ _ _ _ ih
  | inbound esid payload now oks clientOk _ ih =>
    exact handleInboundMessage_invP _ _ _ _ _ _ _ ih
  | timerReq sid mid _ ih => exact fireRequestTimeout_invP _ _ _ ih
  | timerSweep now _ ih => exact cleanupIdleSessions_invP _ _ _ ih

/-- C1 witness: the amended invariant evaluated on a concrete reachable state. -/
theorem c1_invariant_witness :
    muxInvariant (createSession defaultMuxConfig initMux 0 7 5).1 = true :=
  c1_invariant_amended defaultMuxConfig _ (by decide) (Reach.create 0 7 5 Reach.init)

/-! ## Claim C10 -/

/-- C10: `routeToBackend` on a backpressured session only refreshes
`lastActivity` and appends the message to `messageQueue`; the routing table,
the pending-request timers, the flow-control window and the sequence counter
are untouched, no envelope is sent, and no timeout is armed (result is
`queued`, and the queued branch precedes the id-tracking code). -/
theorem c10_backpressure_queue_frame (cfg : MuxConfig) (st : MuxState) (sid : Nat)
    (msg : MMessage) (now : Nat) (sendOk : Bool) (s : Session)
    (hlk : lookupMap st.sessions sid = some s)
    (hA : st.hasAdapter = true)
    (hfc : cfg.enableFlowControl = true)
    (hbp : s.backpressure = true) :
    routeToBackend cfg st sid msg now sendOk =
      ({ st with sessions := setMap st.sessions sid (enqueueMsg (touch s now) msg) },
       .queued) ∧
    (routeToBackend cfg st sid msg now sendOk).1.messageRoutes = st.messageRoutes ∧
    (enqueueMsg (touch s now) msg).pendingRequests = s.pendingRequests ∧
    (enqueueMsg (touch s now) msg).flowControlWindow = s.flowControlWindow ∧
    (enqueueMsg (touch s now) msg).lastSequence = s.lastSequence ∧
    (enqueueMsg (touch s now) msg).messageQueue = s.messageQueue ++ [msg] ∧
    (enqueueMsg (touch s now) msg).lastActivity = now := by
  have hmain : routeToBackend cfg st sid msg now sendOk =
      ({ st with sessions := setMap st.sessions sid (enqueueMsg (touch s now) msg) },
       .queued) := by
    unfold routeToBackend
    simp [hlk, hA, hfc, hbp]
  exact ⟨hmain, by rw [hmain], rfl, rfl, rfl, rfl, rfl⟩

/-- C10 witness: the frame property evaluated at a concrete backpressured
session and request message. -/
theorem c10_backpressure_queue_frame_witness :
    routeToBackend defaultMuxConfig bpState 3 { id := some 9, body := 4 } 7 true =
      ({ bpState with
          sessions := setMap bpState.sessions 3
            (enqueueMsg (touch bpSession 7) { id := some 9, body := 4 }) },
       .queued) :=
  (c10_backpressure_queue_frame defaultMuxConfig bpState 3 { id := some 9, body := 4 } 7 true
    bpSession (by decide) (by decide) (by decide) (by decide)).1

/-! ## Claim C5 -/

theorem destroySession_of_some {st : MuxState} {sid : Nat} {s : Session}
    (hlk : lookupMap st.sessions sid = some s) :
    (destroySession st sid).1 =
      { st with
          sessions := delMap st.sessions sid
          messageRoutes := st.messageRoutes.filter (fun p => p.2 != sid) } := by
  unfold destroySession
  simp [hlk]

/-- C5: below the configured cap, `createSession` succeeds and appends a fresh
session under the generated id; at the cap it fails with the SessionError
"Maximum concurrent sessions exceeded" leaving the table unchanged; after
destroying one of the sessions at the cap it succeeds again. The generated id
is an input (`Utils.generateSessionId`), assumed unused. -/
theorem c5_session_capacity (cfg : MuxConfig) (st : MuxState) (fid pid now : Nat) :
    (st.sessions.length < cfg.maxConcurrentSessions →
      lookupMap st.sessions fid = none →
      createSession cfg st fid pid now =
        ({ st with sessions := st.sessions ++ [(fid, mkSession cfg fid pid now)] },
         .ok fid)) ∧
    (cfg.maxConcurrentSessions ≤ st.sessions.length →
      createSession cfg st fid pid now = (st, .err "Maximum concurrent sessions exceeded")) ∧
    (∀ sid, st.sessions.length = cfg.maxConcurrentSessions →
      (st.sessions.map Prod.fst).Nodup →
      (lookupMap st.sessions sid).isSome →
      lookupMap (destroySession st sid).1.sessions fid = none →
      createSession cfg (destroySession st sid).1 fid pid now =
        ({ (destroySession st sid).1 with
            sessions := (destroySession st sid).1.sessions ++ [(fid, mkSession cfg fid pid now)] },
         .ok fid)) := by
  refine ⟨?_, ?_, ?_⟩
  · intro hlt hfresh
    unfold createSession
    rw [if_neg (by omega), setMap_of_lookup_none _ _ _ hfresh]
  · intro hge
    unfold createSession
    rw [if_pos hge]
  · intro sid hlen hnd hsome hfresh
    obtain ⟨s, hs⟩ := Option.isSome_iff_exists.mp hsome
    have hdestroy := destroySession_of_some hs
    have hlenafter : (destroySession st sid).1.sessions.length + 1 = st.sessions.length := by
      rw [hdestroy]
      exact length_delMap_of_mem _ _ hnd hsome
    unfold createSession
    rw [if_neg (by omega), setMap_of_lookup_none _ _ _ hfresh]

/-- C5 witness: with the cap 2 reached, the third `createSession` fails with
the capacity SessionError and the table is unchanged; after destroying
session 1 it succeeds. -/
theorem c5_session_capacity_witness :
    createSession cap2Cfg cap2St 3 13 5 =
      (cap2St, .err "Maximum concurrent sessions exceeded") ∧
    (createSession cap2Cfg (destroySession cap2St 1).1 3 13 6).2 = .ok 3 := by
  constructor
  · exact (c5_session_capacity cap2Cfg cap2St 3 13 5).2.1 (by decide)
  · have h := (c5_session_capacity cap2Cfg cap2St 3 13 6).2.2 1
      (by decide) (by decide) (by decide) (by decide)
    rw [h]

/-! ## Claim C8 -/

/-- C8: an inbound message with no explicit envelope session is resolved by a
routing-table lookup on its id; if the message has no id, or the id has no
routing entry, the result is the unroutable-message error, the state is
unchanged and nothing is delivered; with a routing entry the message goes to
that session through `routeToClient`. -/
theorem c8_unroutable_inbound (cfg : MuxConfig) (st : MuxState) (payload : MMessage)
    (now : Nat) (oks : List Bool) (clientOk : Bool) :
    (payload.id = none →
      handleInboundMessage cfg st none payload now oks clientOk = (st, [], .unroutable)) ∧
    (∀ i, payload.id = some i → lookupMap st.messageRoutes i = none →
      handleInboundMessage cfg st none payload now oks clientOk = (st, [], .unroutable)) ∧
    (∀ i tid, payload.id = some i → lookupMap st.messageRoutes i = some tid →
      handleInboundMessage cfg st none payload now oks clientOk =
        ((routeToClient cfg st tid payload now oks clientOk).1,
         (routeToClient cfg st tid payload now oks clientOk).2.1,
         match (routeToClient cfg st tid payload now oks clientOk).2.2 with
         | .delivered => IResult.delivered tid
         | _ => IResult.deliverError tid)) := by
  refine ⟨?_, ?_, ?_⟩
  · intro hid
    unfold handleInboundMessage resolveTarget
    simp [hid]
  · intro i hid hroute
    unfold handleInboundMessage resolveTarget
    simp [hid, hroute]
  · intro i tid hid hroute
    unfold handleInboundMessage resolveTarget
    simp [hid, hroute]

/-- C8 witness: an inbound message whose id 5 was never recorded in the (empty)
routing table yields the unroutable result, with no state change and no
delivery. -/
theorem c8_unroutable_inbound_witness :
    handleInboundMessage defaultMuxConfig initMux none { id := some 5, body := 0 } 3 [] true =
      (initMux, [], .unroutable) :=
  (c8_unroutable_inbound defaultMuxConfig initMux { id := some 5, body := 0 } 3 [] true).2.1
    5 rfl (by decide)

/-! ## Claim C3 -/

theorem idxOfMsg_drop (full : List MMessage) (hnd : full.Nodup) :
    ∀ (j : Nat) (m : MMessage) (rest : List MMessage),
      full.drop j = m :: rest → idxOfMsg m full = j := by
  induction full with
  | nil =>
    intro j m rest h
    rw [List.drop_nil] at h
    cases h
  | cons x xs ih =>
    intro j m rest h
    cases j with
    | zero =>
      simp only [List.drop_zero] at h
      injection h with h1 h2
      subst h1
      simp [idxOfMsg]
    | succ j' =>
      rw [List.drop_succ_cons] at h
      have hmem : m ∈ xs := List.drop_subset _ _ (h ▸ List.mem_cons_self m rest)
      have hne : x ≠ m := by
        rintro rfl
        exact (List.nodup_cons.mp hnd).1 hmem
      have hstep : idxOfMsg m (x :: xs) = idxOfMsg m xs + 1 := by
        simp [idxOfMsg, hne]
      rw [hstep, ih (List.nodup_cons.mp hnd).2 j' m rest h]

/-- Closed form of the successful-send branch of `routeToBackend`. -/
theorem routeToBackend_send_ok (cfg : MuxConfig) (st : MuxState) (sid : Nat)
    (m : MMessage) (now : Nat) (s : Session)
    (hlk : lookupMap st.sessions sid = some s) (hA : st.hasAdapter = true)
    (hbp : s.backpressure = false) :
    routeToBackend cfg st sid m now true =
      ({ st with
          sessions := setMap st.sessions sid
            (bumpSeq (fcDecrement cfg.enableFlowControl (trackPending (touch s now) m.id)))
          messageRoutes := trackRoutes st.messageRoutes sid m.id },
       .sent
        { sessionId := sid
          sequence := (bumpSeq (fcDecrement cfg.enableFlowControl
            (trackPending (touch s now) m.id))).lastSequence
          payload := m
          timestamp := now }) := by
  unfold routeToBackend
  simp [hlk, hA, hbp]

theorem flushLoop_spec (cfg : MuxConfig) (full : List MMessage) (hnd : full.Nodup) :
    ∀ (rest : List MMessage) (j : Nat), full.drop j = rest →
      ∀ (st : MuxState) (sid now : Nat) (oks : List Bool) (s : Session),
        lookupMap st.sessions sid = some s → s.messageQueue = [] →
        st.hasAdapter = true → (∀ b ∈ oks, b = true) →
        ∃ k, k ≤ rest.length ∧
          ((flushLoop cfg full rest st sid now oks).2.map Envelope.payload = rest.take k) ∧
          ((lookupMap (flushLoop cfg full rest st sid now oks).1.sessions sid).map
              Session.messageQueue = some (rest.drop k)) ∧
          (s.backpressure = false → rest ≠ [] → 1 ≤ k) := by
  intro rest
  induction rest with
  | nil =>
    intro j hj st sid now oks s hlk hq hA hoks
    refine ⟨0, by omega, by simp [flushLoop], ?_, by simp⟩
    simp [flushLoop, hlk, hq]
  | cons m rest ih =>
    intro j hj st sid now oks s hlk hq hA hoks
    by_cases hbp : s.backpressure = true
    · -- backpressure re-triggered before this message: re-queue the suffix, stop
      have hidx : idxOfMsg m full = j := idxOfMsg_drop full hnd j m rest hj
      refine ⟨0, by omega, ?_, ?_, ?_⟩
      · unfold flushLoop
        simp [hlk, hbp]
      · unfold flushLoop
        simp only [hlk, hbp, if_true]
        rw [lookupMap_setMap_self]
        simp [hidx, hj, hq]
      · intro hbf
        rw [hbf] at hbp
        cases hbp
    · have hbp' : s.backpressure = false := by simpa using hbp
      have hok : oks.headD true = true := by
        cases oks with
        | nil => rfl
        | cons b bs => exact hoks b (List.mem_cons_self _ _)
      have hoks' : ∀ b ∈ oks.tail, b = true := by
        cases oks with
        | nil => intro b hb; cases hb
        | cons b bs => intro c hc; exact hoks c (List.mem_cons_of_mem _ hc)
      have hstep := routeToBackend_send_ok cfg st sid m now s hlk hA hbp'
      set s' := bumpSeq (fcDecrement cfg.enableFlowControl (trackPending (touch s now) m.id))
        with hs'
      have hdrop : full.drop (j + 1) = rest := by
        rw [← List.drop_drop, hj, List.drop_succ_cons, List.drop_zero]
      obtain ⟨k, hk, hpay, hqueue, hfirst⟩ :=
        ih (j + 1) hdrop
          { st with
              sessions := setMap st.sessions sid s'
              messageRoutes := trackRoutes st.messageRoutes sid m.id }
          sid now oks.tail s'
          (lookupMap_setMap_self _ _ _)
          (by rw [hs']; simpa using hq)
          hA
          hoks'
      refine ⟨k + 1, by simpa using hk, ?_, ?_, ?_⟩
      · unfold flushLoop
        simp only [hlk, hbp', Bool.false_eq_true, if_false]
        rw [hok, hstep]
        simpa using hpay
      · unfold flushLoop
        simp only [hlk, hbp', Bool.false_eq_true, if_false]
        rw [hok, hstep]
        simpa using hqueue
      · intro _ _
        omega

theorem processQueuedMessages_spec (cfg : MuxConfig) (st : MuxState) (sid now : Nat)
    (oks : List Bool) (s : Session)
    (hlk : lookupMap st.sessions sid = some s) (hA : st.hasAdapter = true)
    (hnd : s.messageQueue.Nodup) (hoks : ∀ b ∈ oks, b = true) :
    ∃ k, k ≤ s.messageQueue.length ∧
      ((processQueuedMessages cfg st sid now oks).2.map Envelope.payload
        = s.messageQueue.take k) ∧
      ((lookupMap (processQueuedMessages cfg st sid now oks).1.sessions sid).map
          Session.messageQueue = some (s.messageQueue.drop k)) ∧
      (s.backpressure = false → s.messageQueue ≠ [] → 1 ≤ k) := by
  by_cases he : s.messageQueue.isEmpty = true
  · have hq : s.messageQueue = [] := by simpa [List.isEmpty_iff] using he
    refine ⟨0, by omega, ?_, ?_, by simp [hq]⟩
    · unfold processQueuedMessages
      simp [hlk, he]
    · unfold processQueuedMessages
      simp [hlk, he, hq]
  · obtain ⟨k, hk, hpay, hqueue, hfirst⟩ :=
      flushLoop_spec cfg s.messageQueue hnd s.messageQueue 0 (by simp)
        { st with sessions := setMap st.sessions sid (clearQueue s) } sid now oks
        (clearQueue s) (lookupMap_setMap_self _ _ _) rfl hA hoks
    refine ⟨k, hk, ?_, ?_, ?_⟩
    · unfold processQueuedMessages
      simp only [hlk, he, Bool.false_eq_true, if_false]
      exact hpay
    · unfold processQueuedMessages
      simp only [hlk, he, Bool.false_eq_true, if_false]
      exact hqueue
    · intro hbf hne
      exact hfirst (by simpa using hbf) hne

/-- C3 (amended): on a backpressured session whose queued messages are pairwise
distinct, once `routeToClient` restores credit the flush sends a FIFO prefix of
the queue (at least one message when the queue is nonempty and all sends
succeed) and leaves exactly the unsent suffix, in order, as the new queue. The
pairwise-distinctness hypothesis is required: with duplicates, the re-queue
point is located with `indexOf` (first occurrence), which is wrong (see the
counterexample). -/
theorem c3_fifo_flush_amended (cfg : MuxConfig) (st : MuxState) (sid : Nat)
    (msg : MMessage) (now : Nat) (oks : List Bool) (clientOk : Bool) (s : Session)
    (hlk : lookupMap st.sessions sid = some s)
    (hA : st.hasAdapter = true)
    (hfc : cfg.enableFlowControl = true)
    (hbp : s.backpressure = true)
    (hw : 0 ≤ s.flowControlWindow)
    (hnd : s.messageQueue.Nodup)
    (hoks : ∀ b ∈ oks, b = true) :
    ((routeToClient cfg st sid msg now oks clientOk).2.1.map Envelope.payload
      = s.messageQueue.take ((routeToClient cfg st sid msg now oks clientOk).2.1.length)) ∧
    ((lookupMap (routeToClient cfg st sid msg now oks clientOk).1.sessions sid).map
        Session.messageQueue
      = some (s.messageQueue.drop
          ((routeToClient cfg st sid msg now oks clientOk).2.1.length))) ∧
    (s.messageQueue ≠ [] → 1 ≤ (routeToClient cfg st sid msg now oks clientOk).2.1.length) := by
  have hguard : ((fcIncrement (clearPending (touch s now) msg.id)).backpressure &&
      decide ((0 : Int) < (fcIncrement (clearPending (touch s now) msg.id)).flowControlWindow))
      = true := by
    simp only [fcIncrement_bp, fcIncrement_window, clearPending_bp, clearPending_window,
      touch_bp, touch_window, hbp, Bool.true_and, decide_eq_true_eq]
    omega
  have hstep : routeToClient cfg st sid msg now oks clientOk =
      ((processQueuedMessages cfg
          { st with
              sessions := setMap st.sessions sid
                (relieveBp (fcIncrement (clearPending (touch s now) msg.id)))
              messageRoutes := clearRoutes st.messageRoutes msg.id } sid now oks).1,
       (processQueuedMessages cfg
          { st with
              sessions := setMap st.sessions sid
                (relieveBp (fcIncrement (clearPending (touch s now) msg.id)))
              messageRoutes := clearRoutes st.messageRoutes msg.id } sid now oks).2,
       if clientOk then .delivered else .errDeliverFailed) := by
    unfold routeToClient
    simp only [hlk, hA, Bool.not_true, Bool.false_eq_true, if_false, hfc, if_true]
    rw [if_pos hguard]
  obtain ⟨k, hk, hpay, hqueue, hfirst⟩ :=
    processQueuedMessages_spec cfg
      { st with
          sessions := setMap st.sessions sid
            (relieveBp (fcIncrement (clearPending (touch s now) msg.id)))
          messageRoutes := clearRoutes st.messageRoutes msg.id } sid now oks
      (relieveBp (fcIncrement (clearPending (touch s now) msg.id)))
      (lookupMap_setMap_self _ _ _) hA
      (by simpa using hnd) hoks
  have hqueue0 : (relieveBp (fcIncrement (clearPending (touch s now) msg.id))).messageQueue
      = s.messageQueue := by simp
  rw [hqueue0] at hpay hqueue hk
  have h2 := congrArg List.length hpay
  rw [List.length_map, List.length_take] at h2
  have hlen : (routeToClient cfg st sid msg now oks clientOk).2.1.length = k := by
    have h3 : (routeToClient cfg st sid msg now oks clientOk).2.1.length =
        (processQueuedMessages cfg
          { st with
              sessions := setMap st.sessions sid
                (relieveBp (fcIncrement (clearPending (touch s now) msg.id)))
              messageRoutes := clearRoutes st.messageRoutes msg.id } sid now oks).2.length := by
      rw [hstep]
    rw [h3, h2]
    omega
  refine ⟨?_, ?_, ?_⟩
  · rw [hlen, hstep]
    exact hpay
  · rw [hlen, hstep]
    exact hqueue
  · intro hne
    rw [hlen]
    exact hfirst rfl (by rw [hqueue0]; exact hne)

/-- C3, counterexample: with queue `[mDup, mDup, mOther]` (the same message
object queued twice), the flush sends `mDup` once and then re-queues
`[mDup, mDup, mOther]` — not the unsent suffix `[mDup, mOther]` — because the
re-queue point is `indexOf` of the duplicated message, so the claimed FIFO
law fails: sent ++ re-queued has `mDup` four times while it was queued three
times. The state is reachable. -/
theorem c3_duplicate_requeue_counterexample :
    Reach c3Cfg c3CounterState ∧
    (lookupMap c3CounterState.sessions 0).map Session.messageQueue
      = some [mDup, mDup, mOther] ∧
    c3CounterRun.2.1.map Envelope.payload = [mDup] ∧
    (lookupMap c3CounterRun.1.sessions 0).map Session.messageQueue
      = some [mDup, mDup, mOther] ∧
    (lookupMap c3CounterRun.1.sessions 0).map Session.messageQueue
      ≠ some [mDup, mOther] ∧
    c3CounterRun.2.1.map Envelope.payload ++ [mDup, mDup, mOther]
      ≠ [mDup, mDup, mOther] := by
  refine ⟨?_, by decide, by decide, by decide, by decide, by decide⟩
  exact Reach.routeB 0 mOther 4 true
    (Reach.routeB 0 mDup 3 true
      (Reach.routeB 0 mDup 2 true
        (Reach.routeB 0 { id := none, body := 0 } 1 true
          (Reach.create 0 9 0 Reach.init))))

/-- C3 witness: the amended FIFO law evaluated on a concrete distinct queue. -/
theorem c3_fifo_flush_witness :
    ((routeToClient c3Cfg c3WitnessState 0 { id := none, body := 5 } 5 [true, true] true).2.1.map
        Envelope.payload
      = c3WitnessSession.messageQueue.take
          ((routeToClient c3Cfg c3WitnessState 0 { id := none, body := 5 } 5
            [true, true] true).2.1.length)) ∧
    ((lookupMap (routeToClient c3Cfg c3WitnessState 0 { id := none, body := 5 } 5
        [true, true] true).1.sessions 0).map Session.messageQueue
      = some (c3WitnessSession.messageQueue.drop
          ((routeToClient c3Cfg c3WitnessState 0 { id := none, body := 5 } 5
            [true, true] true).2.1.length))) ∧
    (c3WitnessSession.messageQueue ≠ [] →
      1 ≤ (routeToClient c3Cfg c3WitnessState 0 { id := none, body := 5 } 5
        [true, true] true).2.1.length) :=
  c3_fifo_flush_amended c3Cfg c3WitnessState 0 { id := none, body := 5 } 5 [true, true] true
    c3WitnessSession (by decide) (by decide) (by decide) (by decide) (by decide) (by decide)
    (by decide)

end Mux

namespace Transport

theorem splitNL_ne_nil (cs : List Char) : splitNL cs ≠ [] := by
  induction cs with
  | nil => simp [splitNL]
  | cons c rest ih =>
    by_cases h : c = '\n'
    · simp [splitNL, h]
    · simp only [splitNL, if_neg h]
      cases hs : splitNL rest with
      | nil => simp
      | cons l ls => simp

theorem splitNL_cons_newline (rest : List Char) :
    splitNL ('\n' :: rest) = [] :: splitNL rest := by
  simp [splitNL]

theorem splitNL_cons_other (c : Char) (rest : List Char) (h : c ≠ '\n') :
    splitNL (c :: rest) = mergeFirst [c] (splitNL rest) := by
  simp only [splitNL, if_neg h]
  cases hs : splitNL rest with
  | nil => exact absurd hs (splitNL_ne_nil rest)
  | cons l ls => simp [mergeFirst]

theorem mergeFirst_ne_nil (x : List Char) (l : List (List Char)) : mergeFirst x l ≠ [] := by
  cases l <;> simp [mergeFirst]

theorem mergeFirst_mergeFirst (x y : List Char) (l : List (List Char)) :
    mergeFirst x (mergeFirst y l) = mergeFirst (x ++ y) l := by
  cases l <;> simp [mergeFirst]

theorem getLastD_irrel {α : Type} {l : List α} (h : l ≠ []) (d d' : α) :
    l.getLastD d = l.getLastD d' := by
  cases l with
  | nil => contradiction
  | cons a t => rw [List.getLastD_cons, List.getLastD_cons]

theorem getLastD_append_right {α : Type} (x : List α) {z : List α} (h : z ≠ []) (d : α) :
    (x ++ z).getLastD d = z.getLastD d := by
  induction x generalizing d with
  | nil => rfl
  | cons a x ih =>
    rw [List.cons_append, List.getLastD_cons, ih]
    exact getLastD_irrel h a d

theorem getLastD_mem {α : Type} : ∀ (l : List α) (d : α), l ≠ [] → l.getLastD d ∈ l
  | [a], d, _ => by simp [List.getLastD_cons]
  | a :: b :: t, d, _ => by
    rw [List.getLastD_cons]
    exact List.mem_cons_of_mem _ (getLastD_mem (b :: t) a (by simp))

theorem splitNL_append (a b : List Char) :
    splitNL (a ++ b) =
      (splitNL a).dropLast ++ mergeFirst ((splitNL a).getLastD []) (splitNL b) := by
  induction a with
  | nil =>
    cases hs : splitNL b with
    | nil => exact absurd hs (splitNL_ne_nil b)
    | cons l ls => simp [splitNL, mergeFirst, hs]
  | cons c a ih =>
    by_cases hc : c = '\n'
    · subst hc
      rw [List.cons_append, splitNL_cons_newline, splitNL_cons_newline, ih]
      cases hs : splitNL a with
      | nil => exact absurd hs (splitNL_ne_nil a)
      | cons l ls => simp [List.dropLast_cons₂, List.getLastD_cons]
    · rw [List.cons_append, splitNL_cons_other c _ hc, splitNL_cons_other c _ hc, ih]
      cases hs : splitNL a with
      | nil => exact absurd hs (splitNL_ne_nil a)
      | cons l ls =>
        cases hsb : splitNL b with
        | nil => exact absurd hsb (splitNL_ne_nil b)
        | cons z zs =>
          cases ls with
          | nil => simp [mergeFirst, List.getLastD_cons]
          | cons l2 t =>
            simp [mergeFirst, List.getLastD_cons, List.dropLast_cons₂]

theorem splitNL_of_no_newline : ∀ (cs : List Char), '\n' ∉ cs → splitNL cs = [cs]
  | [], _ => rfl
  | c :: rest, h => by
    have hc : c ≠ '\n' := fun hh => h (hh ▸ List.mem_cons_self c rest)
    rw [splitNL_cons_other c rest hc,
      splitNL_of_no_newline rest (fun hm => h (List.mem_cons_of_mem c hm))]
    rfl

theorem no_newline_mem_splitNL : ∀ (cs : List Char), ∀ l ∈ splitNL cs, '\n' ∉ l := by
  intro cs
  induction cs with
  | nil =>
    intro l hl
    simp [splitNL] at hl
    simp [hl]
  | cons c rest ih =>
    by_cases hc : c = '\n'
    · subst hc
      rw [splitNL_cons_newline]
      intro l hl
      rcases List.mem_cons.mp hl with h | h
      · simp [h]
      · exact ih l h
    · rw [splitNL_cons_other c rest hc]
      cases hs : splitNL rest with
      | nil => exact absurd hs (splitNL_ne_nil rest)
      | cons x xs =>
        intro l hl
        simp only [mergeFirst, List.mem_cons] at hl
        rcases hl with h | h
        · subst h
          intro hmem
          rcases List.mem_cons.mp hmem with h1 | h1
          · exact hc h1.symm
          · exact ih x (by rw [hs]; exact List.mem_cons_self x xs) h1
        · exact ih l (by rw [hs]; exact List.mem_cons_of_mem x h)

theorem countValid_cons (parse : List Char → Option JSValue) (l : List Char)
    (ls : List (List Char)) :
    countValid parse (l :: ls) =
      (if (trimJS l).isEmpty then 0
       else
         match parse (trimJS l) with
         | some v => if isValidMCPMessage v then 1 else 0
         | none => 0) + countValid parse ls := rfl

theorem countValid_append (parse : List Char → Option JSValue) (x y : List (List Char)) :
    countValid parse (x ++ y) = countValid parse x + countValid parse y := by
  induction x with
  | nil => simp [countValid]
  | cons l ls ih =>
    rw [List.cons_append, countValid_cons, countValid_cons, ih]
    omega

theorem outSeqs_nil : outSeqs [] = [] := rfl

theorem outSeqs_cons_err (evs : List TAEvent) :
    outSeqs (.parseError :: evs) = outSeqs evs := rfl

theorem outSeqs_cons_out (env : TEnvelope) (evs : List TAEvent) :
    outSeqs (.outbound env :: evs) = env.sequence :: outSeqs evs := rfl

theorem outSessions_nil : outSessions [] = [] := rfl

theorem outSessions_cons_err (evs : List TAEvent) :
    outSessions (.parseError :: evs) = outSessions evs := rfl

theorem outSessions_cons_out (env : TEnvelope) (evs : List TAEvent) :
    outSessions (.outbound env :: evs) = env.sessionId :: outSessions evs := rfl

theorem specLineEvents_append (parse : List Char → Option JSValue) (sid : Nat) :
    ∀ (x y : List (List Char)) (n : Nat),
      specLineEvents parse sid n (x ++ y) =
        specLineEvents parse sid n x ++ specLineEvents parse sid (n + countValid parse x) y := by
  intro x
  induction x with
  | nil => intro y n; simp [specLineEvents, countValid]
  | cons l ls ih =>
    intro y n
    by_cases hb : (trimJS l).isEmpty = true
    · simp [specLineEvents, countValid, hb, ih]
    · cases hp : parse (trimJS l) with
      | none => simp [specLineEvents, countValid, hb, hp, ih]
      | some v =>
        by_cases hv : isValidMCPMessage v = true
        · have harith : n + 1 + countValid parse ls = n + (1 + countValid parse ls) := by omega
          simp [specLineEvents, countValid, hb, hp, hv, ih, harith]
        · simp [specLineEvents, countValid, hb, hp, hv, ih]

theorem handleLines_spec (parse : List Char → Option JSValue) (sid : Nat) :
    ∀ (lines : List (List Char)) (buf : List Char) (n : Nat),
      handleLines parse sid { messageBuffer := buf, outboundSequence := n } lines =
        ({ messageBuffer := buf, outboundSequence := n + countValid parse lines },
         specLineEvents parse sid n lines) := by
  intro lines
  induction lines with
  | nil => intro buf n; simp [handleLines, countValid, specLineEvents]
  | cons l ls ih =>
    intro buf n
    by_cases hb : (trimJS l).isEmpty = true
    · simp [handleLines, hb, countValid, specLineEvents, ih]
    · cases hp : parse (trimJS l) with
      | none =>
        simp [handleLines, hb, processIncomingMessage, hp, countValid, specLineEvents, ih]
      | some v =>
        by_cases hv : isValidMCPMessage v = true
        · have harith : n + 1 + countValid parse ls = n + (1 + countValid parse ls) := by omega
          simp [handleLines, hb, processIncomingMessage, hp, hv, countValid, specLineEvents,
            ih, harith]
        · simp [handleLines, hb, processIncomingMessage, hp, hv, countValid, specLineEvents, ih]

theorem handleStdinData_spec (parse : List Char → Option JSValue) (sid : Nat)
    (buf chunk : List Char) (n : Nat) :
    handleStdinData parse sid { messageBuffer := buf, outboundSequence := n } chunk =
      ({ messageBuffer := (splitNL (buf ++ chunk)).getLastD []
         outboundSequence := n + countValid parse (splitNL (buf ++ chunk)).dropLast },
       specLineEvents parse sid n (splitNL (buf ++ chunk)).dropLast) :=
  handleLines_spec parse sid (splitNL (buf ++ chunk)).dropLast
    ((splitNL (buf ++ chunk)).getLastD []) n

theorem runChunks_spec (parse : List Char → Option JSValue) (sid : Nat) :
    ∀ (chunks : List (List Char)) (buf : List Char) (n : Nat), '\n' ∉ buf →
      runChunks parse sid { messageBuffer := buf, outboundSequence := n } chunks =
        ({ messageBuffer := (splitNL (buf ++ chunks.flatten)).getLastD []
           outboundSequence := n + countValid parse (splitNL (buf ++ chunks.flatten)).dropLast },
         specLineEvents parse sid n (splitNL (buf ++ chunks.flatten)).dropLast) := by
  intro chunks
  induction chunks with
  | nil =>
    intro buf n hnl
    rw [List.flatten_nil, List.append_nil, splitNL_of_no_newline buf hnl]
    simp [runChunks, countValid, specLineEvents, List.getLastD_cons]
  | cons c cs ih =>
    intro buf n hnl
    have h1 : runChunks parse sid { messageBuffer := buf, outboundSequence := n } (c :: cs) =
        ((runChunks parse sid
            (handleStdinData parse sid { messageBuffer := buf, outboundSequence := n } c).1 cs).1,
         (handleStdinData parse sid { messageBuffer := buf, outboundSequence := n } c).2 ++
          (runChunks parse sid
            (handleStdinData parse sid { messageBuffer := buf, outboundSequence := n } c).1
            cs).2) := rfl
    rw [h1, handleStdinData_spec]
    have hb1 : '\n' ∉ (splitNL (buf ++ c)).getLastD [] :=
      no_newline_mem_splitNL (buf ++ c) _
        (getLastD_mem (splitNL (buf ++ c)) [] (splitNL_ne_nil _))
    rw [ih ((splitNL (buf ++ c)).getLastD [])
      (n + countValid parse (splitNL (buf ++ c)).dropLast) hb1]
    have hsplit : splitNL (buf ++ (c :: cs).flatten) =
        (splitNL (buf ++ c)).dropLast ++
          splitNL ((splitNL (buf ++ c)).getLastD [] ++ cs.flatten) := by
      rw [List.flatten_cons, ← List.append_assoc, splitNL_append (buf ++ c) cs.flatten]
      congr 1
      rw [splitNL_append ((splitNL (buf ++ c)).getLastD []) cs.flatten,
        splitNL_of_no_newline _ hb1]
      simp [List.getLastD_cons]
    rw [hsplit,
      List.dropLast_append_of_ne_nil _ (splitNL_ne_nil _),
      getLastD_append_right _ (splitNL_ne_nil _),
      countValid_append, specLineEvents_append]
    have harith : n + (countValid parse (splitNL (buf ++ c)).dropLast +
        countValid parse (splitNL ((splitNL (buf ++ c)).getLastD [] ++ cs.flatten)).dropLast) =
       n + countValid parse (splitNL (buf ++ c)).dropLast +
        countValid parse (splitNL ((splitNL (buf ++ c)).getLastD [] ++ cs.flatten)).dropLast := by
      omega
    rw [harith]

theorem outSeqs_specLineEvents (parse : List Char → Option JSValue) (sid : Nat) :
    ∀ (lines : List (List Char)) (n : Nat),
      outSeqs (specLineEvents parse sid n lines) =
        List.range' (n + 1) (countValid parse lines) := by
  intro lines
  induction lines with
  | nil => intro n; simp [specLineEvents, countValid, outSeqs]
  | cons l ls ih =>
    intro n
    by_cases hb : (trimJS l).isEmpty = true
    · simp [specLineEvents, countValid_cons, hb, ih]
    · cases hp : parse (trimJS l) with
      | none =>
        simp only [specLineEvents, hb, Bool.false_eq_true, if_false, hp,
          outSeqs_cons_err, countValid_cons]
        rw [ih]
        simp
      | some v =>
        by_cases hv : isValidMCPMessage v = true
        · simp only [specLineEvents, hb, Bool.false_eq_true, if_false, hp, hv, if_true,
            outSeqs_cons_out, countValid_cons]
          rw [ih, show 1 + countValid parse ls = countValid parse ls + 1 from by omega,
            List.range'_succ]
        · have hv' : isValidMCPMessage v = false := by simpa using hv
          simp only [specLineEvents, hb, Bool.false_eq_true, if_false, hp, hv',
            outSeqs_cons_err, countValid_cons]
          rw [ih]
          simp [hv']

theorem outSessions_specLineEvents (parse : List Char → Option JSValue) (sid : Nat) :
    ∀ (lines : List (List Char)) (n : Nat),
      (outSessions (specLineEvents parse sid n lines)).all (fun x => x == sid) = true := by
  intro lines
  induction lines with
  | nil => intro n; simp [specLineEvents, outSessions]
  | cons l ls ih =>
    intro n
    by_cases hb : (trimJS l).isEmpty = true
    · simp [specLineEvents, hb, ih]
    · cases hp : parse (trimJS l) with
      | none =>
        simp only [specLineEvents, hb, Bool.false_eq_true, if_false, hp, outSessions_cons_err]
        exact ih n
      | some v =>
        by_cases hv : isValidMCPMessage v = true
        · simp only [specLineEvents, hb, Bool.false_eq_true, if_false, hp, hv, if_true,
            outSessions_cons_out]
          simp only [List.all_cons, beq_self_eq_true, Bool.true_and]
          exact ih (n + 1)
        · have hv' : isValidMCPMessage v = false := by simpa using hv
          simp only [specLineEvents, hb, Bool.false_eq_true, if_false, hp, hv',
            outSessions_cons_err]
          exact ih n

/-! ### Claim C7 -/

/-- C7: for every chunking of stdin and every behaviour of `JSON.parse`
(an oracle), feeding the chunks one by one (1) leaves exactly the trailing
partial line of the concatenated input in the buffer; (2) produces exactly
the events of processing, in order, each complete non-blank trimmed line of
the concatenation — one parse-error event and no envelope per invalid line,
exactly one envelope per valid line (the refinement to `specLineEvents`);
(3) the envelope sequence numbers are exactly `1, 2, ..., k` — strictly
increasing, starting at 1, with no gaps; (4) the sequence counter ends at
`k`; and (5) every envelope carries the adapter's single session id. -/
theorem c7_stdio_framing (parse : List Char → Option JSValue) (sid : Nat)
    (chunks : List (List Char)) :
    (runChunks parse sid initTA chunks).1.messageBuffer
        = (splitNL chunks.flatten).getLastD [] ∧
    (runChunks parse sid initTA chunks).2
        = specLineEvents parse sid 0 (splitNL chunks.flatten).dropLast ∧
    outSeqs (runChunks parse sid initTA chunks).2
        = List.range' 1 (outSeqs (runChunks parse sid initTA chunks).2).length ∧
    (runChunks parse sid initTA chunks).1.outboundSequence
        = (outSeqs (runChunks parse sid initTA chunks).2).length ∧
    (outSessions (runChunks parse sid initTA chunks).2).all (fun x => x == sid) = true := by
  have h := runChunks_spec parse sid chunks [] 0 (by simp)
  rw [List.nil_append,
    show ({ messageBuffer := ([] : List Char), outboundSequence := 0 } : TAState) = initTA
      from rfl] at h
  have hseqs : outSeqs (runChunks parse sid initTA chunks).2
      = List.range' 1 (countValid parse (splitNL chunks.flatten).dropLast) := by
    rw [show (runChunks parse sid initTA chunks).2
        = specLineEvents parse sid 0 (splitNL chunks.flatten).dropLast from by rw [h],
      outSeqs_specLineEvents]
  refine ⟨by rw [h], by rw [h], ?_, ?_, ?_⟩
  · rw [hseqs, List.length_range']
  · rw [hseqs, List.length_range', show (runChunks parse sid initTA chunks).1
        = { messageBuffer := (splitNL chunks.flatten).getLastD []
            outboundSequence := 0 + countValid parse (splitNL chunks.flatten).dropLast }
      from by rw [h]]
    show 0 + countValid parse (splitNL chunks.flatten).dropLast
        = countValid parse (splitNL chunks.flatten).dropLast
    omega
  · rw [show (runChunks parse sid initTA chunks).2
        = specLineEvents parse sid 0 (splitNL chunks.flatten).dropLast from by rw [h]]
    exact outSessions_specLineEvents parse sid _ 0

/-! ### Claim C2 -/

/-- C2 (the code contradicts it): in HTTP mode a completed round trip — the
POST for sequence 1 answered synchronously — leaves sequence 1 in
`pendingRequests`, because `sendToBackend` arms the response timer only after
`sendViaHttp` has already run `handleBackendResponse` on the awaited reply; the
inbound event is emitted, nothing ever clears the timer, and when it fires it
emits the timeout error for the answered request, contrary to the claim that
the round trip clears the timer with no timeout firing. -/
theorem c2_http_timeout_fires_after_roundtrip :
    (sendToBackendHttp 7 { pendingRequests := [], backendConnected := true } 1
      (JSValue.obj false true false 0)).1.pendingRequests = [1] ∧
    (sendToBackendHttp 7 { pendingRequests := [], backendConnected := true } 1
      (JSValue.obj false true false 0)).2
      = [.inbound 7 1 (JSValue.obj false true false 0)] ∧
    (fireResponseTimeout
      (sendToBackendHttp 7 { pendingRequests := [], backendConnected := true } 1
        (JSValue.obj false true false 0)).1 1).2 = [.timeoutError 1] ∧
    (fireResponseTimeout
      (sendToBackendHttp 7 { pendingRequests := [], backendConnected := true } 1
        (JSValue.obj false true false 0)).1 1).1.pendingRequests = [] := by
  refine ⟨?_, ?_, ?_, ?_⟩ <;> decide

/-! ### Claim C9 -/

theorem routeToClient_clientFail_ne_delivered (cfg : Mux.MuxConfig) (st : Mux.MuxState)
    (sid : Nat) (msg : Mux.MMessage) (now : Nat) (oks : List Bool) :
    (Mux.routeToClient cfg st sid msg now oks false).2.2 ≠ Mux.CResult.delivered := by
  unfold Mux.routeToClient
  cases hlk : lookupMap st.sessions sid with
  | none => simp
  | some s0 =>
    by_cases hA : st.hasAdapter = true
    · simp only [hA, Bool.not_true, Bool.false_eq_true, if_false]
      by_cases hfc : cfg.enableFlowControl = true
      · simp only [hfc, if_true]
        split
        · simp
        · simp
      · have hfc' : cfg.enableFlowControl = false := by simpa using hfc
        simp [hfc']
    · have hA' : st.hasAdapter = false := by simpa using hA
      simp [hA']

/-- C9: `sendToClient` throws the TransportError exactly when the adapter is
not started or the session id differs from the adapter's own; only the
adapter's own session, with the adapter started, ever gets a line written to
stdout; consequently `routeToClient` wired to this adapter never reports
delivery for any other session — it always surfaces a `SessionError`
(unknown session, missing adapter, or the wrapped transport failure). -/
theorem c9_stdio_session_guard (ts : StdioClientState) (sid : Nat) (data : Mux.MMessage)
    (cfg : Mux.MuxConfig) (st : Mux.MuxState) (msg : Mux.MMessage) (now : Nat)
    (oks : List Bool) :
    ((sendToClient ts sid data
        = SendToClientResult.errTransport "Transport not started or session mismatch")
      ↔ (ts.isStarted = false ∨ sid ≠ ts.sessionId)) ∧
    (∀ d, sendToClient ts sid data = SendToClientResult.written d →
      ts.isStarted = true ∧ sid = ts.sessionId ∧ d = data) ∧
    (sid ≠ ts.sessionId →
      (routeToClientViaStdio cfg st ts sid msg now oks).2.2 ≠ Mux.CResult.delivered) := by
  refine ⟨?_, ?_, ?_⟩
  · unfold sendToClient
    by_cases h1 : ts.isStarted = true
    · by_cases h2 : sid = ts.sessionId
      · simp [h1, h2]
      · simp [h1, h2]
    · have h1' : ts.isStarted = false := by simpa using h1
      simp [h1']
  · intro d
    unfold sendToClient
    by_cases h1 : ts.isStarted = true
    · by_cases h2 : sid = ts.sessionId
      · simp [h1, h2]
        intro hd
        exact hd.symm
      · simp [h1, h2]
    · have h1' : ts.isStarted = false := by simpa using h1
      simp [h1']
  · intro hneq
    unfold routeToClientViaStdio sendToClient
    have h2 : (sid != ts.sessionId) = true := by simpa using hneq
    simp only [h2, Bool.or_true, Bool.not_true]
    exact routeToClient_clientFail_ne_delivered cfg st sid msg now oks

/-- C9 witness: for the foreign session 5, `sendToClient` throws the
TransportError and the composed `routeToClient` does not report delivery. -/
theorem c9_stdio_session_guard_witness :
    sendToClient ts4 5 ({ id := none, body := 0 } : Mux.MMessage)
      = SendToClientResult.errTransport "Transport not started or session mismatch" ∧
    (routeToClientViaStdio Mux.defaultMuxConfig Mux.initMux ts4 5
      { id := none, body := 0 } 3 []).2.2 ≠ Mux.CResult.delivered :=
  ⟨((c9_stdio_session_guard ts4 5 { id := none, body := 0 } Mux.defaultMuxConfig Mux.initMux
      { id := none, body := 0 } 3 []).1).mpr (Or.inr (by decide)),
   (c9_stdio_session_guard ts4 5 { id := none, body := 0 } Mux.defaultMuxConfig Mux.initMux
      { id := none, body := 0 } 3 []).2.2 (by decide)⟩

end Transport

namespace Proc

/-! ### Claim C4 -/

/-- C4: for an exit observed while the status is not `stopping`, the status
becomes `crashed`, exactly one crash event carrying a `ProcessError` is
emitted, and a restart (with backoff delay `2 ^ restartCount` seconds, i.e.
2000 ms for the first crash) is attempted exactly when the policy is not
`never` and the previous restart count is below `maxRestartAttempts`; at or
beyond the cap (or under policy `never`) no restart happens and the crash is
only reported. -/
theorem c4_crash_restart_backoff (cfg : PMConfig) (st : PMStatus) (code signal : String)
    (h : st.status ≠ .stopping) :
    (onProcessExit cfg st code signal).1.status = .crashed ∧
    (onProcessExit cfg st code signal).2.1 =
      [.backendCrashed ⟨s!"Process exited unexpectedly with code {code}, signal {signal}"⟩] ∧
    ((onProcessExit cfg st code signal).2.2.isSome
      ↔ (cfg.restartPolicy ≠ .never ∧ st.restartCount < cfg.maxRestartAttempts)) ∧
    ((onProcessExit cfg st code signal).2.2.isSome →
      (onProcessExit cfg st code signal).2.2 = some (2 ^ (st.restartCount + 1) * 1000) ∧
      (onProcessExit cfg st code signal).1.restartCount = st.restartCount + 1) ∧
    ((onProcessExit cfg st code signal).2.2 = none →
      (onProcessExit cfg st code signal).1.restartCount = st.restartCount) := by
  unfold onProcessExit attemptRestart
  rw [if_neg h]
  simp only []
  have hrc : (updateStatus st PStatus.crashed).restartCount = st.restartCount := rfl
  rw [hrc]
  by_cases hpol : cfg.restartPolicy = RestartPolicy.never
  · rw [if_pos hpol]
    refine ⟨by trivial, by trivial, ?_, ?_, fun _ => by trivial⟩
    · simp only [Option.isSome_none, Bool.false_eq_true, false_iff, not_and]
      intro hne
      exact absurd hpol hne
    · intro hs
      simp at hs
  · rw [if_neg hpol]
    by_cases hcap : cfg.maxRestartAttempts ≤ st.restartCount
    · rw [if_pos hcap]
      refine ⟨by trivial, by trivial, ?_, ?_, fun _ => by trivial⟩
      · simp only [Option.isSome_none, Bool.false_eq_true, false_iff, not_and]
        intro _
        omega
      · intro hs
        simp at hs
    · rw [if_neg hcap]
      refine ⟨by trivial, by trivial, ?_, fun _ => ⟨by trivial, by trivial⟩, ?_⟩
      · simp only [Option.isSome_some]
        exact ⟨fun _ => ⟨hpol, by omega⟩, fun _ => by trivial⟩
      · intro hfalse
        simp at hfalse

/-- C4 witness: a running supervisor with restart count 0 crashing under the
default policy transitions to `crashed` and schedules the first restart with
a 2000 ms backoff. -/
theorem c4_crash_restart_backoff_witness :
    (onProcessExit { restartPolicy := .onFailure, maxRestartAttempts := 3 }
      { status := .running, restartCount := 0, isHealthy := true } "1" "null").1.status
      = .crashed ∧
    (onProcessExit { restartPolicy := .onFailure, maxRestartAttempts := 3 }
      { status := .running, restartCount := 0, isHealthy := true } "1" "null").2.2
      = some 2000 :=
  ⟨(c4_crash_restart_backoff { restartPolicy := .onFailure, maxRestartAttempts := 3 }
      { status := .running, restartCount := 0, isHealthy := true } "1" "null"
      (by decide)).1,
   by decide⟩

/-! ### Claim C6 -/

/-- C6: `start` fails with the conflict `ProcessError` exactly when a lock
file exists whose recorded pid is alive; in that case nothing is spawned and
the lock file is left as it was. Otherwise — absent lock, unparseable lock,
or dead pid — the check leaves the lock absent (stale or invalid files are
silently removed) and start proceeds: it spawns and writes its own record. -/
theorem c6_lock_conflict (alive : Nat → Bool) (selfPid : Nat) (lock : LockFile) :
    ((pmStart alive selfPid lock).conflict = true
      ↔ ∃ p, lock = .valid p ∧ alive p = true) ∧
    ((pmStart alive selfPid lock).conflict = true →
      (pmStart alive selfPid lock).spawned = false ∧
      (pmStart alive selfPid lock).finalLock = lock) ∧
    ((pmStart alive selfPid lock).conflict = false →
      (pmStart alive selfPid lock).lockAfterCheck = .absent ∧
      (pmStart alive selfPid lock).spawned = true ∧
      (pmStart alive selfPid lock).finalLock = .valid selfPid) := by
  cases lock with
  | absent => simp [pmStart, isAnotherInstanceRunning]
  | invalid => simp [pmStart, isAnotherInstanceRunning]
  | valid p =>
    by_cases hp : alive p = true
    · simp [pmStart, isAnotherInstanceRunning, hp]
    · have hp' : alive p = false := by simpa using hp
      simp [pmStart, isAnotherInstanceRunning, hp']

/-- C6 witness: a lock naming the live pid 42 blocks start without spawning;
a lock naming the dead pid 9 is removed and start proceeds. -/
theorem c6_lock_conflict_witness :
    (pmStart alive42 7 (.valid 42)).conflict = true ∧
    (pmStart alive42 7 (.valid 42)).spawned = false ∧
    (pmStart alive42 7 (.valid 9)).conflict = false ∧
    (pmStart alive42 7 (.valid 9)).lockAfterCheck = .absent ∧
    (pmStart alive42 7 (.valid 9)).spawned = true :=
  ⟨(c6_lock_conflict alive42 7 (.valid 42)).1.mpr ⟨42, rfl, by decide⟩,
   ((c6_lock_conflict alive42 7 (.valid 42)).2.1 (by decide)).1,
   by decide,
   ((c6_lock_conflict alive42 7 (.valid 9)).2.2 (by decide)).1,
   ((c6_lock_conflict alive42 7 (.valid 9)).2.2 (by decide)).2.1⟩

end Proc

end ShimMCP
